import Mathlib

/-!
Verification development for the WASEM instruction-level symbolic execution
core (`seewasm/arch/wasm/instructions/*.py` and `seewasm/arch/wasm/lib/utils.py`).

The Python code manipulates z3 expressions.  The embedding models a z3
expression as the inductive `SymVal`: concrete bit-vectors carry their width
and value, concrete floats carry their IEEE bit pattern, boolean expressions
are built from literals, negation and opaque atoms (unevaluated comparisons),
and all other solver terms are kept as opaque tagged applications — exactly
the view the emulators have of them (they only ever inspect values through
`is_bv` / `is_bool` / `is_true` / `is_false` / `is_bv_value`, widths, and
`simplify`'s constant folding).  Python exceptions (assertion failures,
KeyError, IndexError, UnboundLocalError, the termination signals, calls to
`exit`) are modelled with the `Except Err` monad.  The symbolic stack is a
Lean list with its head as the stack top; Python's `append`/`pop` on the
list tail becomes cons/uncons.  Python dicts keyed by integers become
association lists with the dict operations (`d[k] = v` updates in place or
appends, `d.pop(k)` removes, `d.get(k)`/`d[k]` look up the first match).
-/

/- ===== Python / character-list string helpers =====
   All string tests are implemented over `String.data` with structural
   recursion so that closed instances reduce definitionally. -/

def charListEq : List Char → List Char → Bool
  | [], [] => true
  | a :: as, b :: bs => a == b && charListEq as bs
  | _, _ => false

def strEq (a b : String) : Bool := charListEq a.data b.data

def charListPfx : List Char → List Char → Bool
  | [], _ => true
  | _, [] => false
  | a :: as, b :: bs => a == b && charListPfx as bs

def charListContains (hay needle : List Char) : Bool :=
  match hay with
  | [] => needle.isEmpty
  | _ :: t => charListPfx needle hay || charListContains t needle

/-- Python's `needle in hay` substring test. -/
def strContains (hay needle : String) : Bool := charListContains hay.data needle.data

/-- Python's `hay.startswith(needle)`. -/
def strStartsWith (hay needle : String) : Bool := charListPfx needle.data hay.data

/-- Python's `s[:n]` prefix slice. -/
def strTake (s : String) (n : Nat) : String := ⟨s.data.take n⟩

/-- Python's `s.split(sep)` for a one-character separator (empty fields kept,
`"".split(sep) == [""]`). -/
def charListSplit (l : List Char) (sep : Char) : List (List Char) :=
  match l with
  | [] => [[]]
  | x :: t =>
    if x == sep then [] :: charListSplit t sep
    else
      match charListSplit t sep with
      | h :: r => (x :: h) :: r
      | [] => [[x]]

def strSplit (s : String) (sep : Char) : List String :=
  (charListSplit s.data sep).map (fun l => ⟨l⟩)

/-- Python's `len(s.split(' '))`, which always equals the number of spaces
plus one. -/
def pySplitLen (s : String) : Nat := (s.data.filter (fun c => c == ' ')).length + 1

/-- Membership of a string in a list of strings (Python set membership over
the literal string sets of the source). -/
def strMem (x : String) (l : List String) : Bool := l.any (fun y => strEq x y)

/-- Python's `int(s)` on an optionally-signed decimal literal (also the
string-accepting path of z3's `BitVecVal`). -/
def parseDecDigits : List Char → Option Nat
  | [] => some 0
  | _ => go 0 []
where
  go (acc : Nat) : List Char → Option Nat
    | [] => some acc
    | c :: t =>
      if '0' ≤ c ∧ c ≤ '9' then go (acc * 10 + (c.toNat - '0'.toNat)) t
      else none

def parseIntStr? (l : List Char) : Option Int :=
  match l with
  | [] => none
  | '-' :: t => if t.isEmpty then none else (parseDecDigits.go 0 t).map (fun n => -(n : Int))
  | _ => (parseDecDigits.go 0 l).map (fun n => (n : Int))

/-- Parse a hexadecimal digit. -/
def hexDigit? (c : Char) : Option Nat :=
  if '0' ≤ c ∧ c ≤ '9' then some (c.toNat - '0'.toNat)
  else if 'a' ≤ c ∧ c ≤ 'f' then some (c.toNat - 'a'.toNat + 10)
  else if 'A' ≤ c ∧ c ≤ 'F' then some (c.toNat - 'A'.toNat + 10)
  else none

/-- Parse a hexadecimal digit string (the `int(s, 16)` / `bytes.fromhex`
numeric content). -/
def parseHexDigits : List Char → Option Nat
  | [] => none
  | l => go 0 l
where
  go (acc : Nat) : List Char → Option Nat
    | [] => some acc
    | c :: t =>
      match hexDigit? c with
      | some d => go (acc * 16 + d) t
      | none => none

/- ===== The symbolic value model (z3 expressions as the emulators see them) ===== -/

/-- A z3 expression.  Concrete bit-vectors and floats are carried with their
numeric content (floats by their IEEE bit pattern); everything the emulators
never evaluate stays an opaque tagged term.  Boolean expressions (`btrue`,
`bfalse`, `bnot`, `batom`) double as path-constraint formulas.  `pyNone` is
the Python `None` object, which can be stored in the locals map. -/
inductive SymVal where
  | bv (w : Nat) (v : Nat)
  | bvTerm (w : Nat) (tag : String) (args : List SymVal)
  | fp (e s : Nat) (bits : Nat)
  | fpTerm (e s : Nat) (tag : String) (args : List SymVal)
  | btrue
  | bfalse
  | bnot (e : SymVal)
  | batom (tag : String) (args : List SymVal)
  | pyNone

/-- z3's `is_bv`. -/
def isBVSym : SymVal → Bool
  | .bv _ _ => true
  | .bvTerm _ _ _ => true
  | _ => false

/-- z3's `is_bv_value`. -/
def isBVValue : SymVal → Bool
  | .bv _ _ => true
  | _ => false

/-- z3's `is_bool`. -/
def isBoolSym : SymVal → Bool
  | .btrue => true
  | .bfalse => true
  | .bnot _ => true
  | .batom _ _ => true
  | _ => false

/-- z3's `is_true` (syntactic test for the literal `True`). -/
def isTrueSym : SymVal → Bool
  | .btrue => true
  | _ => false

/-- z3's `is_false`. -/
def isFalseSym : SymVal → Bool
  | .bfalse => true
  | _ => false

/-- The `.size()` method of a bit-vector expression; `none` models the
AttributeError raised when the receiver is not a bit-vector. -/
def bvWidth? : SymVal → Option Nat
  | .bv w _ => some w
  | .bvTerm w _ _ => some w
  | _ => none

/-- The `.ebits()`/`.sbits()` pair of a floating-point expression. -/
def fpShape? : SymVal → Option (Nat × Nat)
  | .fp e s _ => some (e, s)
  | .fpTerm e s _ _ => some (e, s)
  | _ => none

/-- The `.isPositive()` method of a concrete floating-point value (sign bit
clear); `none` models the AttributeError on a non-value expression. -/
def fpIsPositive? : SymVal → Option Bool
  | .fp e s bits => some (decide (bits % 2 ^ (e + s) < 2 ^ (e + s - 1)))
  | _ => none

/-- Semantics of the boolean fragment: a valuation assigns a truth value to
every opaque atom. -/
def evalB (ρ : String → List SymVal → Bool) : SymVal → Bool
  | .btrue => true
  | .bfalse => false
  | .bnot e => !(evalB ρ e)
  | .batom t as => ρ t as
  | _ => false

/-- Truth of an accumulated path constraint (a conjunction). -/
def evalPC (ρ : String → List SymVal → Bool) (pc : List SymVal) : Bool :=
  pc.all (evalB ρ)

/-- Joint satisfiability of a path constraint and one extra condition. -/
def SatPC (pc : List SymVal) (e : SymVal) : Prop :=
  ∃ ρ, evalPC ρ pc = true ∧ evalB ρ e = true

/- ===== Two's-complement arithmetic used by z3's constant folding ===== -/

def toSigned (w v : Nat) : Int :=
  if v % 2 ^ w < 2 ^ (w - 1) then ((v % 2 ^ w : Nat) : Int)
  else ((v % 2 ^ w : Nat) : Int) - (2 ^ w : Nat)

def ofIntW (w : Nat) (i : Int) : Nat := (i % ((2 ^ w : Nat) : Int)).toNat

def bvuDiv (w a b : Nat) : Nat := if b % 2 ^ w = 0 then 2 ^ w - 1 else (a % 2 ^ w) / (b % 2 ^ w)

def bvuRem (w a b : Nat) : Nat := if b % 2 ^ w = 0 then a % 2 ^ w else (a % 2 ^ w) % (b % 2 ^ w)

/-- SMT-LIB `bvsdiv` (truncating signed division; division by zero gives
all-ones for a non-negative dividend and 1 otherwise). -/
def bvsDiv (w a b : Nat) : Nat :=
  let ia := toSigned w a
  let ib := toSigned w b
  if ib = 0 then (if 0 ≤ ia then 2 ^ w - 1 else 1)
  else
    let q : Nat := ia.natAbs / ib.natAbs
    ofIntW w (if (0 ≤ ia) = (0 ≤ ib) then (q : Int) else -(q : Int))

/-- SMT-LIB `bvsrem` (remainder takes the dividend's sign; by zero gives the
dividend). -/
def bvsRem (w a b : Nat) : Nat :=
  let ia := toSigned w a
  let ib := toSigned w b
  if ib = 0 then a % 2 ^ w
  else
    let r : Nat := ia.natAbs % ib.natAbs
    ofIntW w (if 0 ≤ ia then (r : Int) else -(r : Int))

def bvShl (w a b : Nat) : Nat := if w ≤ b % 2 ^ w then 0 else ((a % 2 ^ w) <<< (b % 2 ^ w)) % 2 ^ w

def bvLshr (w a b : Nat) : Nat := if w ≤ b % 2 ^ w then 0 else (a % 2 ^ w) >>> (b % 2 ^ w)

def bvAshr (w a b : Nat) : Nat :=
  let a := a % 2 ^ w
  let sh := min (b % 2 ^ w) w
  if a < 2 ^ (w - 1) then a >>> sh
  else ((a >>> sh) + (2 ^ w - 2 ^ (w - sh))) % 2 ^ w

def bvRotl (w a b : Nat) : Nat :=
  let r := (b % 2 ^ w) % w
  (((a % 2 ^ w) <<< r) ||| ((a % 2 ^ w) >>> (w - r))) % 2 ^ w

def bvRotr (w a b : Nat) : Nat :=
  let r := (b % 2 ^ w) % w
  (((a % 2 ^ w) >>> r) ||| ((a % 2 ^ w) <<< (w - r))) % 2 ^ w

/- ===== The z3 term constructors used by the emulators =====
   Each mirrors the z3py operator the Python code applies: the operator
   builds an application term; `simplifySym` below performs the constant
   folding that z3's `simplify` does on such freshly built terms. -/

def z3BinBV (tag : String) (w : Nat) (a b : SymVal) : SymVal := .bvTerm w tag [a, b]

/-- z3's `arg != 0` on a bit-vector. -/
def z3Ne0 (a : SymVal) : SymVal := .batom "ne0" [a]

/-- z3's `arg == 0` on a bit-vector. -/
def z3Eq0 (a : SymVal) : SymVal := .batom "eq0" [a]

/-- z3's `op == BitVecVal(i, w)`. -/
def z3EqNat (op : SymVal) (i : Nat) : SymVal :=
  match bvWidth? op with
  | some w => .batom "eq" [op, .bv w (i % 2 ^ w)]
  | none => .batom "eqbad" [op]

/-- z3's signed `op >= BitVecVal(n, w)`. -/
def z3SgeNat (op : SymVal) (n : Nat) : SymVal :=
  match bvWidth? op with
  | some w => .batom "sge" [op, .bv w (n % 2 ^ w)]
  | none => .batom "sgebad" [op]

/-- z3's signed `op < 0`. -/
def z3Slt0 (op : SymVal) : SymVal := .batom "slt0" [op]

def z3Or2 (a b : SymVal) : SymVal := .batom "or" [a, b]

def z3OrList (l : List SymVal) : SymVal := .batom "orN" l

/-- The constant folding z3's `simplify` performs on the one-layer terms the
emulators build (the arguments are already simplified when the term is
constructed, so one layer of folding is exactly what the code observes). -/
def simplifySym (v : SymVal) : SymVal :=
  match v with
  | .bvTerm w "bvadd" [.bv _ a, .bv _ b] => .bv w ((a + b) % 2 ^ w)
  | .bvTerm w "bvsub" [.bv _ a, .bv _ b] => .bv w (ofIntW w ((a % 2 ^ w : Nat) - (b % 2 ^ w : Nat)))
  | .bvTerm w "bvmul" [.bv _ a, .bv _ b] => .bv w ((a * b) % 2 ^ w)
  | .bvTerm w "bvsdiv" [.bv _ a, .bv _ b] => .bv w (bvsDiv w a b)
  | .bvTerm w "bvudiv" [.bv _ a, .bv _ b] => .bv w (bvuDiv w a b)
  | .bvTerm w "bvsrem" [.bv _ a, .bv _ b] => .bv w (bvsRem w a b)
  | .bvTerm w "bvurem" [.bv _ a, .bv _ b] => .bv w (bvuRem w a b)
  | .bvTerm w "bvand" [.bv _ a, .bv _ b] => .bv w ((a &&& b) % 2 ^ w)
  | .bvTerm w "bvor" [.bv _ a, .bv _ b] => .bv w ((a ||| b) % 2 ^ w)
  | .bvTerm w "bvxor" [.bv _ a, .bv _ b] => .bv w ((a ^^^ b) % 2 ^ w)
  | .bvTerm w "bvashr" [.bv _ a, .bv _ b] => .bv w (bvAshr w a b)
  | .bvTerm w "bvlshr" [.bv _ a, .bv _ b] => .bv w (bvLshr w a b)
  | .bvTerm w "bvshl" [.bv _ a, .bv _ b] => .bv w (bvShl w a b)
  | .bvTerm w "rotl" [.bv _ a, .bv _ b] => .bv w (bvRotl w a b)
  | .bvTerm w "rotr" [.bv _ a, .bv _ b] => .bv w (bvRotr w a b)
  | .batom "ne0" [.bv w a] => if a % 2 ^ w ≠ 0 then .btrue else .bfalse
  | .batom "eq0" [.bv w a] => if a % 2 ^ w = 0 then .btrue else .bfalse
  | .batom "eq" [.bv w a, .bv _ b] => if a % 2 ^ w = b % 2 ^ w then .btrue else .bfalse
  | .batom "sge" [.bv w a, .bv _ b] => if toSigned w b ≤ toSigned w a then .btrue else .bfalse
  | .batom "slt0" [.bv w a] => if toSigned w a < 0 then .btrue else .bfalse
  | .batom "or" [a, b] =>
    if isTrueSym a || isTrueSym b then .btrue
    else if isFalseSym a && isFalseSym b then .bfalse
    else if isFalseSym a then b
    else if isFalseSym b then a
    else .batom "or" [a, b]
  | .batom "orN" l =>
    if l.any isTrueSym then .btrue
    else
      match l.filter (fun e => !isFalseSym e) with
      | [] => .bfalse
      | [x] => x
      | l2 => .batom "orN" l2
  | v => v

/- ===== Errors, termination signals, query results ===== -/

/-- Python exceptions and the analysis termination signals
(`seewasm.arch.wasm.exceptions` declares the latter; the rest are ordinary
Python runtime errors). -/
inductive Err where
  | indexError
  | keyError
  | valueError
  | structError
  | assertError
  | unboundLocalError
  | attributeError
  | z3Error
  | unsupportedInstruction
  | unsupportedGlobalType
  | procSuccessTermination
  | procFailTermination
  | exitCalled
deriving DecidableEq

/-- Result of a solver satisfiability query. -/
inductive QueryResult where
  | sat
  | unsat
  | unknown
deriving DecidableEq

/-- Modelled from the spec: `one_time_query_cache` (from
`seewasm.arch.wasm.utils`, which is not under `src/`) issues a satisfiability
query for (path-constraint AND expr) through a per-state memoizing cache, so
its result is a function of the current path constraint and the queried
expression.  Emulation is parametrised by such a function. -/
def SolverQuery : Type := List SymVal → SymVal → QueryResult

/- ===== Python dict helpers (insertion-ordered, integer keys) ===== -/

/-- Python `d.get(k)` / `d[k]` lookup. -/
def dictGet? {α : Type} (d : List (Nat × α)) (k : Nat) : Option α :=
  match d with
  | [] => none
  | (k1, v) :: t => if k1 = k then some v else dictGet? t k

/-- Python `k in d`. -/
def dictHas {α : Type} (d : List (Nat × α)) (k : Nat) : Bool :=
  d.any (fun p => p.1 == k)

/-- Python `d[k] = v`: update in place when the key exists, append otherwise. -/
def dictSet {α : Type} (d : List (Nat × α)) (k : Nat) (v : α) : List (Nat × α) :=
  match d with
  | [] => [(k, v)]
  | (k1, v1) :: t => if k1 = k then (k, v) :: t else (k1, v1) :: dictSet t k v

/-- Python `d.pop(k)` with a swallowed KeyError: remove the key if present. -/
def dictPop {α : Type} (d : List (Nat × α)) (k : Nat) : List (Nat × α) :=
  d.filter (fun p => p.1 != k)

/- ===== Execution state ===== -/

/-- A value stored in the globals dict: the module initialisation can leave
primitive Python ints or (numeric) strings there, which `get_global`
promotes to 32-bit constants. -/
inductive GlobalVal where
  | pyInt (i : Int)
  | pyStr (s : String)
  | sym (v : SymVal)

/-- A saved caller frame (an element of `context_stack`):
`(current_func, current_block, stack, local, require_return)`. -/
structure Frame where
  funcName : String
  retBlock : Nat
  savedStack : List SymVal
  savedLocal : List (Nat × SymVal)
  requireReturn : Bool

/-- The execution state (`symbolic_stack` has its top at the list head;
`solver` is the accumulated conjunction of path constraints, `add`
appends). -/
structure State where
  symbolicStack : List SymVal
  localVar : List (Nat × SymVal)
  globals : List (Nat × GlobalVal)
  solver : List SymVal
  contextStack : List Frame
  currentFuncName : String
  currentBlock : Nat
  edgeType : String
  callIndirectCallee : String

/-- Static data of one decoded instruction: mnemonic, raw operand bytes, the
original textual form, and whether the instruction carries an xref (used by
`nop` to detect the synthetic function exit point). -/
structure InstrInfo where
  name : String
  operandBytes : List Nat
  instrStr : String
  xref : Bool

/- ===== ArithmeticInstructions.py ===== -/

/-- The `helper_map` widths for the integer types (`f32`/`f64` map to lists
in the source and are never reached on the integer path; any other key is a
Python KeyError). -/
def helperMapInt? (t : String) : Option Nat :=
  if strEq t "i32" then some 32
  else if strEq t "i64" then some 64
  else none

/-- The `helper_map` exponent/significand shapes for the float types. -/
def helperMapFloat? (t : String) : Option (Nat × Nat) :=
  if strEq t "f32" then some (8, 24)
  else if strEq t "f64" then some (11, 53)
  else none

/-- Coercion of a popped BoolRef to a fresh bit-vector named after the
boolean (`BitVec(str(arg), width)`), with the logged information-loss
warning elided. -/
def boolToBV (w : Nat) (v : SymVal) : SymVal := .bvTerm w "boolcoerce" [v]

/-- Shared two-operand integer pop-coerce-check sequence: pop `arg1` then
`arg2`, coerce booleans, and assert both widths. -/
def popTwoInts (w : Nat) (s : State) : Except Err (SymVal × SymVal × State) :=
  match s.symbolicStack with
  | a1 :: a2 :: rest =>
    let a1 := if isBoolSym a1 then boolToBV w a1 else a1
    let a2 := if isBoolSym a2 then boolToBV w a2 else a2
    match bvWidth? a1, bvWidth? a2 with
    | some w1, some w2 =>
      if w1 = w ∧ w2 = w then .ok (a1, a2, { s with symbolicStack := rest })
      else .error .assertError
    | _, _ => .error .attributeError
  | _ => .error .indexError

/-- `do_emulate_arithmetic_int_instruction`: `clz`/`ctz` push the bit width
as a constant and `popcnt` pushes 0 without looking at the popped operand;
the binary operators pop `arg1` (RHS) then `arg2` (LHS) and compute
`arg2 OP arg1`. -/
def intArithEmulate (name : String) (s : State) : Except Err (List State) :=
  let instrType := strTake name 3
  if strContains name ".clz" || strContains name ".ctz" then
    match helperMapInt? instrType with
    | none => .error .keyError
    | some w =>
      match s.symbolicStack with
      | [] => .error .indexError
      | _ :: rest => .ok [{ s with symbolicStack := SymVal.bv w w :: rest }]
  else if strContains name ".popcnt" then
    match helperMapInt? instrType with
    | none => .error .keyError
    | some w =>
      match s.symbolicStack with
      | [] => .error .indexError
      | _ :: rest => .ok [{ s with symbolicStack := SymVal.bv w 0 :: rest }]
  else
    match helperMapInt? instrType with
    | none => .error .keyError
    | some w =>
      match popTwoInts w s with
      | .error e => .error e
      | .ok (arg1, arg2, s1) =>
        let result? : Option SymVal :=
          if strContains name ".sub" then some (z3BinBV "bvsub" w arg2 arg1)
          else if strContains name ".add" then some (z3BinBV "bvadd" w arg2 arg1)
          else if strContains name ".mul" then some (z3BinBV "bvmul" w arg2 arg1)
          else if strContains name ".div_s" then some (z3BinBV "bvsdiv" w arg2 arg1)
          else if strContains name ".div_u" then some (z3BinBV "bvudiv" w arg2 arg1)
          else if strContains name ".rem_s" then some (z3BinBV "bvsrem" w arg2 arg1)
          else if strContains name ".rem_u" then some (z3BinBV "bvurem" w arg2 arg1)
          else none
        match result? with
        | none => .error .unsupportedInstruction
        | some r => .ok [{ s1 with symbolicStack := simplifySym r :: s1.symbolicStack }]

/-- z3's `fpNeg` on a concrete value: toggle the IEEE sign bit. -/
def fpNegBits (w bits : Nat) : Nat :=
  if bits % 2 ^ w < 2 ^ (w - 1) then bits % 2 ^ w + 2 ^ (w - 1) else bits % 2 ^ w - 2 ^ (w - 1)

/-- The `result` assignment chain of the two-operand float instructions.
`Except` carries the AttributeError of `.isPositive()` on a non-value;
`Option` distinguishes an assigned `result` from the fall-through that
leaves `result` unbound. -/
def floatTwoArgResult (name : String) (eb sb : Nat) (a1 a2 : SymVal) :
    Except Err (Option SymVal) :=
  if strContains name ".add" then .ok (some (.fpTerm eb sb "fpAdd" [a2, a1]))
  else if strContains name ".sub" then .ok (some (.fpTerm eb sb "fpSub" [a2, a1]))
  else if strContains name ".mul" then .ok (some (.fpTerm eb sb "fpMul" [a2, a1]))
  else if strContains name ".div" then .ok (some (.fpTerm eb sb "fpDiv" [a2, a1]))
  else if strContains name ".min" then .ok (some (.fpTerm eb sb "fpMin" [a2, a1]))
  else if strContains name ".max" then .ok (some (.fpTerm eb sb "fpMax" [a2, a1]))
  else if strContains name ".copysign" && strEq name "f32.copysign" then
    match fpIsPositive? a2, fpIsPositive? a1 with
    | some p2, some p1 =>
      if p2 ^^ p1 then
        match a1 with
        | .fp e1 s1 bits => .ok (some (.fp e1 s1 (fpNegBits (e1 + s1) bits)))
        | _ => .ok (some (.fpTerm eb sb "fpNeg" [a1]))
      else .ok none
    | _, _ => .error .attributeError
  else .ok none

/-- The `result` assignment chain of the one-operand float instructions. -/
def floatOneArgResult (name : String) (eb sb : Nat) (a1 : SymVal) : Option SymVal :=
  if strContains name ".sqrt" then some (.fpTerm eb sb "fpSqrt" [a1])
  else if strContains name ".floor" then some (.fpTerm eb sb "fpRoundRTN" [a1])
  else if strContains name ".ceil" then some (.fpTerm eb sb "fpRoundRTP" [a1])
  else if strContains name ".trunc" then some (.fpTerm eb sb "fpRoundRTZ" [a1])
  else if strContains name ".nearest" then some (.fpTerm eb sb "fpRoundRNE" [a1])
  else if strContains name ".abs" then some (.fpTerm eb sb "fpAbs" [a1])
  else if strContains name ".neg" then
    match a1 with
    | .fp e1 s1 bits => some (.fp e1 s1 (fpNegBits (e1 + s1) bits))
    | _ => some (.fpTerm eb sb "fpNeg" [a1])
  else none

/-- `do_emulate_arithmetic_float_instruction`.  Note the guard of the
`copysign` branch: the Python line reads
`elif '.copysign' in self.instr_name == 'f32.copysign':`, a chained
comparison equivalent to
`('.copysign' in instr_name) and (instr_name == 'f32.copysign')`, so it can
only match `f32.copysign`; whenever no branch assigns `result` (the
`f64.copysign` case, and `f32.copysign` with agreeing signs), the later
`result = simplify(result)` raises UnboundLocalError. -/
def floatArithEmulate (name : String) (s : State) : Except Err (List State) :=
  let instrType := strTake name 3
  let twoArgumentInstrs :=
    ["add", "sub", "mul", "div", "min", "max", "copysign"].map
      (fun i => instrType ++ "." ++ i)
  let oneArgumentInstrs :=
    ["sqrt", "floor", "ceil", "trunc", "nearest", "abs", "neg"].map
      (fun i => instrType ++ "." ++ i)
  match helperMapFloat? instrType with
  | none => .error .keyError
  | some (eb, sb) =>
    if strMem name twoArgumentInstrs then
      match s.symbolicStack with
      | a1 :: a2 :: rest =>
        match fpShape? a1, fpShape? a2 with
        | some (e1, s1), some (e2, s2) =>
          if (e1 = eb ∧ s1 = sb) ∧ (e2 = eb ∧ s2 = sb) then
            match floatTwoArgResult name eb sb a1 a2 with
            | .error e => .error e
            | .ok none => .error .unboundLocalError
            | .ok (some r) =>
              .ok [{ s with symbolicStack := simplifySym r :: rest }]
          else .error .assertError
        | _, _ => .error .attributeError
      | _ => .error .indexError
    else if strMem name oneArgumentInstrs then
      match s.symbolicStack with
      | [] => .error .indexError
      | a1 :: rest =>
        match fpShape? a1 with
        | some (e1, s1) =>
          if e1 = eb ∧ s1 = sb then
            match floatOneArgResult name eb sb a1 with
            | none => .error .unboundLocalError
            | some r => .ok [{ s with symbolicStack := simplifySym r :: rest }]
          else .error .assertError
        | none => .error .attributeError
    else .error .unsupportedInstruction

/-- `ArithmeticInstructions.emulate`: dispatch on the first character of the
mnemonic (`i` selects the integer path, anything else the float path). -/
def arithmeticEmulate (name : String) (s : State) : Except Err (List State) :=
  match name.data with
  | 'i' :: _ => intArithEmulate name s
  | _ => floatArithEmulate name s

/- ===== BitwiseInstructions.py ===== -/

/-- `BitwiseInstructions.emulate`: pop `arg1` then `arg2`, coerce booleans to
bit-vectors, assert widths, dispatch on a substring of the mnemonic, fold the
result, materialise a boolean result as a concrete 32-bit 1/0, and push. -/
def bitwiseEmulate (name : String) (s : State) : Except Err (List State) :=
  let instrType := strTake name 3
  match helperMapInt? instrType with
  | none => .error .keyError
  | some w =>
    match popTwoInts w s with
    | .error e => .error e
    | .ok (arg1, arg2, s1) =>
      let result? : Option SymVal :=
        if strContains name ".and" then some (z3BinBV "bvand" w arg1 arg2)
        else if strContains name ".or" then some (z3BinBV "bvor" w arg1 arg2)
        else if strContains name ".xor" then some (z3BinBV "bvxor" w arg1 arg2)
        else if strContains name ".shr_s" then some (z3BinBV "bvashr" w arg2 arg1)
        else if strContains name ".shr_u" then some (z3BinBV "bvlshr" w arg2 arg1)
        else if strContains name ".shl" then some (z3BinBV "bvshl" w arg2 arg1)
        else if strContains name ".rotl" then some (z3BinBV "rotl" w arg2 arg1)
        else if strContains name ".rotr" then some (z3BinBV "rotr" w arg2 arg1)
        else none
      match result? with
      | none => .error .unsupportedInstruction
      | some r =>
        let r := simplifySym r
        let r :=
          if isBoolSym r then
            if isTrueSym r then SymVal.bv 32 1
            else if isFalseSym r then SymVal.bv 32 0
            else r
          else r
        if isBVSym r || isBoolSym r then
          .ok [{ s1 with symbolicStack := r :: s1.symbolicStack }]
        else .error .assertError

/- ===== ConversionInstructions.py ===== -/

/-- Pop the operand and require it to be a bit-vector of the given width
(the `assert arg0.size() == w` pattern; a non-bit-vector operand raises
AttributeError at the `.size()` call). -/
def popBVChecked (w : Nat) (s : State) : Except Err (SymVal × List SymVal) :=
  match s.symbolicStack with
  | [] => .error .indexError
  | a :: rest =>
    match bvWidth? a with
    | some w0 => if w0 = w then .ok (a, rest) else .error .assertError
    | none => .error .attributeError

/-- Pop the operand and require the given float shape (the
`assert arg0.ebits() == e` / `assert arg0.sbits() == sb` pattern). -/
def popFPChecked (e sb : Nat) (s : State) : Except Err (SymVal × List SymVal) :=
  match s.symbolicStack with
  | [] => .error .indexError
  | a :: rest =>
    match fpShape? a with
    | some (e0, s0) => if e0 = e ∧ s0 = sb then .ok (a, rest) else .error .assertError
    | none => .error .attributeError

/-- z3's `fpBVToFP(bv, sort)`: reinterpret a bit pattern as a float of the
same total width (the bits are carried unchanged). -/
def fpBVToFP (e sb : Nat) (v : SymVal) : SymVal :=
  match v with
  | .bv _ bits => .fp e sb bits
  | _ => .fpTerm e sb "fpBVToFP" [v]

/-- z3's `fpToIEEEBV(fp)`: the IEEE bit pattern of a float, as a bit-vector
of the float's total width. -/
def fpToIEEEBV (v : SymVal) : SymVal :=
  match v with
  | .fp e sb bits => .bv (e + sb) bits
  | .fpTerm e sb _ _ => .bvTerm (e + sb) "fpToIEEEBV" [v]
  | _ => .bvTerm 0 "fpToIEEEBV" [v]

/-- z3's `SignExt(n, arg)` on a `w`-bit operand. -/
def z3SignExt (n w : Nat) (v : SymVal) : SymVal :=
  match v with
  | .bv _ a => .bv (w + n) (ofIntW (w + n) (toSigned w a))
  | _ => .bvTerm (w + n) "signext" [v]

/-- z3's `ZeroExt(n, arg)` on a `w`-bit operand. -/
def z3ZeroExt (n w : Nat) (v : SymVal) : SymVal :=
  match v with
  | .bv _ a => .bv (w + n) (a % 2 ^ w)
  | _ => .bvTerm (w + n) "zeroext" [v]

/-- The `i32.wrap/i64` computation `Extract(31, 0, arg0 % BitVecVal(2**32, 64))`. -/
def z3Wrap32 (v : SymVal) : SymVal :=
  match v with
  | .bv _ a => .bv 32 (a % 2 ^ 32)
  | _ => .bvTerm 32 "wrap" [v]

/-- The shared shape of every conversion branch: pop and width/shape-check
the operand, build the converted result, push it, return one state. -/
def convCase (s : State) (pop : State → Except Err (SymVal × List SymVal))
    (mk : SymVal → SymVal) : Except Err (List State) :=
  match pop s with
  | .error e => .error e
  | .ok (a, rest) => .ok [{ s with symbolicStack := mk a :: rest }]

/-- `ConversionInstructions.emulate`: every branch asserts the operand's
exact width or float shape before converting and the result's shape after
(the result shape holds by z3's sort discipline — the conversion operators
produce a term of the requested sort, which the opaque-term model carries in
its type tags).  Float-to-int, int-to-float and float-width conversions are
kept as opaque terms of the declared target sort; `wrap`, the extensions and
the reinterpretations are folded on concrete operands, mirroring z3's
`simplify`. -/
def conversionEmulate (name : String) (s : State) : Except Err (List State) :=
  if strEq name "i32.wrap/i64" then
    convCase s (popBVChecked 64) (fun a => z3Wrap32 a)
  else if strEq name "i64.extend_s/i32" then
    convCase s (popBVChecked 32) (fun a => z3SignExt 32 32 a)
  else if strEq name "i64.extend_u/i32" then
    convCase s (popBVChecked 32) (fun a => z3ZeroExt 32 32 a)
  else if strEq name "i32.trunc_s/f32" then
    convCase s (popFPChecked 8 24) (fun a => SymVal.bvTerm 32 "fpToSBV" [a])
  else if strEq name "i32.trunc_s/f64" then
    convCase s (popFPChecked 11 53) (fun a => SymVal.bvTerm 32 "fpToSBV" [a])
  else if strEq name "i64.trunc_s/f32" then
    convCase s (popFPChecked 8 24) (fun a => SymVal.bvTerm 64 "fpToSBV" [a])
  else if strEq name "i64.trunc_s/f64" then
    convCase s (popFPChecked 11 53) (fun a => SymVal.bvTerm 64 "fpToSBV" [a])
  else if strEq name "i32.trunc_u/f32" then
    convCase s (popFPChecked 8 24) (fun a => SymVal.bvTerm 32 "fpToUBV" [a])
  else if strEq name "i32.trunc_u/f64" then
    convCase s (popFPChecked 11 53) (fun a => SymVal.bvTerm 32 "fpToUBV" [a])
  else if strEq name "i64.trunc_u/f32" then
    convCase s (popFPChecked 8 24) (fun a => SymVal.bvTerm 64 "fpToUBV" [a])
  else if strEq name "i64.trunc_u/f64" then
    convCase s (popFPChecked 11 53) (fun a => SymVal.bvTerm 64 "fpToUBV" [a])
  else if strEq name "f32.demote/f64" then
    convCase s (popFPChecked 11 53) (fun a => SymVal.fpTerm 8 24 "fpFPToFP" [a])
  else if strEq name "f64.promote/f32" then
    convCase s (popFPChecked 8 24) (fun a => SymVal.fpTerm 11 53 "fpFPToFP" [a])
  else if strEq name "f32.convert_s/i32" then
    convCase s (popBVChecked 32) (fun a => SymVal.fpTerm 8 24 "fpSignedToFP" [a])
  else if strEq name "f32.convert_s/i64" then
    convCase s (popBVChecked 64) (fun a => SymVal.fpTerm 8 24 "fpSignedToFP" [a])
  else if strEq name "f64.convert_s/i32" then
    convCase s (popBVChecked 32) (fun a => SymVal.fpTerm 11 53 "fpSignedToFP" [a])
  else if strEq name "f64.convert_s/i64" then
    convCase s (popBVChecked 64) (fun a => SymVal.fpTerm 11 53 "fpSignedToFP" [a])
  else if strEq name "f32.convert_u/i32" then
    convCase s (popBVChecked 32) (fun a => SymVal.fpTerm 8 24 "fpUnsignedToFP" [a])
  else if strEq name "f32.convert_u/i64" then
    convCase s (popBVChecked 64) (fun a => SymVal.fpTerm 8 24 "fpUnsignedToFP" [a])
  else if strEq name "f64.convert_u/i32" then
    convCase s (popBVChecked 32) (fun a => SymVal.fpTerm 11 53 "fpUnsignedToFP" [a])
  else if strEq name "f64.convert_u/i64" then
    convCase s (popBVChecked 64) (fun a => SymVal.fpTerm 11 53 "fpUnsignedToFP" [a])
  else if strEq name "i32.reinterpret/f32" then
    convCase s (popFPChecked 8 24) (fun a => fpToIEEEBV a)
  else if strEq name "i64.reinterpret/f64" then
    convCase s (popFPChecked 11 53) (fun a => fpToIEEEBV a)
  else if strEq name "f32.reinterpret/i32" then
    convCase s (popBVChecked 32) (fun a => fpBVToFP 8 24 a)
  else if strEq name "f64.reinterpret/i64" then
    convCase s (popBVChecked 64) (fun a => fpBVToFP 11 53 a)
  else if strEq name "i32.extend_s/i8" then
    convCase s (popBVChecked 8) (fun a => z3SignExt 24 8 a)
  else
    match s.symbolicStack with
    | [] => .error .indexError
    | _ :: _ => .error .unsupportedInstruction

/- ===== VariableInstructions.py ===== -/

/-- Strip the four-byte `\x80\x80\x80\x80` marker prefix left by some
toolchains before the operand is interpreted. -/
def stripMarker (b : List Nat) : List Nat :=
  if b.take 4 = [128, 128, 128, 128] then b.drop 4 else b

/-- Little-endian interpretation of the operand bytes
(`int.from_bytes(operand, byteorder='little')`). -/
def leFromBytes : List Nat → Nat
  | [] => 0
  | b :: t => b % 256 + 256 * leFromBytes t

/-- `VariableInstructions.emulate`.  For `get_local`, the initialized branch
and the (dead-guard) uninitialized branch both execute
`state.symbolic_stack.append(state.local_var[op])`, so a present key —
including one whose stored value is the `None` sentinel — is pushed as-is,
and only an absent key raises (a KeyError from `local_var[op]`, not the
commented-out UninitializedLocalVariableError). -/
def variableEmulate (name : String) (operandBytes : List Nat) (s : State) :
    Except Err (List State) :=
  let operand := stripMarker operandBytes
  let op := leFromBytes operand
  if strEq name "get_local" then
    match dictGet? s.localVar op with
    | some v => .ok [{ s with symbolicStack := v :: s.symbolicStack }]
    | none => .error .keyError
  else if strEq name "set_local" then
    match s.symbolicStack with
    | [] => .error .indexError
    | v :: rest => .ok [{ s with symbolicStack := rest, localVar := dictSet s.localVar op v }]
  else if strEq name "get_global" then
    match dictGet? s.globals op with
    | none => .error .keyError
    | some g =>
      match g with
      | .pyInt i => .ok [{ s with symbolicStack := SymVal.bv 32 (ofIntW 32 i) :: s.symbolicStack }]
      | .pyStr str =>
        match parseIntStr? str.data with
        | some i => .ok [{ s with symbolicStack := SymVal.bv 32 (ofIntW 32 i) :: s.symbolicStack }]
        | none => .error .z3Error
      | .sym v =>
        if isBVSym v || isBVValue v then
          .ok [{ s with symbolicStack := v :: s.symbolicStack }]
        else .error .unsupportedGlobalType
  else if strEq name "set_global" then
    match s.symbolicStack with
    | [] => .error .indexError
    | v :: rest =>
      .ok [{ s with symbolicStack := rest, globals := dictSet s.globals op (.sym v) }]
  else if strEq name "tee_local" then
    match s.symbolicStack with
    | [] => .error .indexError
    | v :: _ => .ok [{ s with localVar := dictSet s.localVar op v }]
  else .error .unsupportedInstruction

/- ===== ConstantInstructions.py ===== -/

/-- A character matched by the `[0-9.-]` class of the float-annotation
regular expression. -/
def isAnnotChar (c : Char) : Bool :=
  (('0' ≤ c && c ≤ '9') : Bool) || c == '.' || c == '-'

/-- The `re.search(';=([0-9.-]+);', const_num)` scan: find the first
position where `;=` is followed by a non-empty run of `[0-9.-]` characters
and a closing `;`, and return the captured run. -/
def findAnnot : List Char → Option (List Char)
  | [] => none
  | c :: t =>
    match c :: t with
    | ';' :: '=' :: rest =>
      let run := rest.takeWhile isAnnotChar
      if !run.isEmpty && ((rest.drop run.length).headD ' ' == ';') then some run
      else findAnnot t
    | _ => findAnnot t

/-- `ConstantInstructions.emulate`: the mnemonic is the first token of the
instruction text and the literal its last token.  Integer constants become
fixed-width bit-vector values.  A float literal is taken from the `(;=...;)`
annotation when present (the decimal-string-to-IEEE conversion of z3's
`FPVal` is kept opaque), otherwise a `0x`-prefixed literal is left-padded
with zeros to 8 (f32) or 16 (f64) hex digits and its bytes reinterpreted as
a big-endian IEEE value; anything else is an unsupported instruction. -/
def constantEmulate (instrStr : String) (s : State) : Except Err (List State) :=
  let toks := strSplit instrStr ' '
  let mnemonic := toks.headD ""
  let constNum := (toks.getLast?).getD ""
  match charListSplit mnemonic.data '.' with
  | [pre, _] =>
    let prefixStr : String := ⟨pre⟩
    if strEq prefixStr "i32" then
      match parseIntStr? constNum.data with
      | some i => .ok [{ s with symbolicStack := SymVal.bv 32 (ofIntW 32 i) :: s.symbolicStack }]
      | none => .error .z3Error
    else if strEq prefixStr "i64" then
      match parseIntStr? constNum.data with
      | some i => .ok [{ s with symbolicStack := SymVal.bv 64 (ofIntW 64 i) :: s.symbolicStack }]
      | none => .error .z3Error
    else if strEq prefixStr "f32" || strEq prefixStr "f64" then
      match findAnnot constNum.data with
      | some run =>
        if strEq prefixStr "f32" then
          .ok [{ s with symbolicStack := SymVal.fpTerm 8 24 ("fpval:" ++ ⟨run⟩) [] :: s.symbolicStack }]
        else
          .ok [{ s with symbolicStack := SymVal.fpTerm 11 53 ("fpval:" ++ ⟨run⟩) [] :: s.symbolicStack }]
      | none =>
        if charListPfx ['0', 'x'] constNum.data then
          let digits := constNum.data.drop 2
          let target := if strEq prefixStr "f32" then 8 else 16
          if digits.length > target then .error .structError
          else
            let padded := List.replicate (target - digits.length) '0' ++ digits
            match parseHexDigits padded with
            | some bits =>
              if strEq prefixStr "f32" then
                .ok [{ s with symbolicStack := SymVal.fp 8 24 bits :: s.symbolicStack }]
              else
                .ok [{ s with symbolicStack := SymVal.fp 11 53 bits :: s.symbolicStack }]
            | none => .error .valueError
        else .error .unsupportedInstruction
    else .error .unsupportedInstruction
  | _ => .error .valueError

/- ===== ParametricInstructions.py ===== -/

/-- `ParametricInstructions.emulate`.  The Python method implicitly returns
`None` when the symbolic `select` condition is unsatisfiable in both
directions (the `pass` branch falls off the end of the method), so the
result type distinguishes `some states` (an explicit `return`) from `none`
(the implicit `return None`).  When the popped condition is a BoolRef rather
than a bit-vector, `op` is never assigned and the subsequent `is_true(op)`
raises UnboundLocalError. -/
def parametricEmulate (q : SolverQuery) (name : String) (s : State) :
    Except Err (Option (List State)) :=
  if strEq name "drop" then
    match s.symbolicStack with
    | [] => .error .indexError
    | _ :: rest => .ok (some [{ s with symbolicStack := rest }])
  else if strEq name "select" then
    match s.symbolicStack with
    | arg0 :: arg1 :: arg2 :: rest =>
      if isBVSym arg0 || isBoolSym arg0 then
        if isBVSym arg0 then
          let op := simplifySym (z3Eq0 arg0)
          if isTrueSym op then
            .ok (some [{ s with symbolicStack := arg1 :: rest }])
          else if isFalseSym op then
            .ok (some [{ s with symbolicStack := arg2 :: rest }])
          else
            let noNeedTrue := q s.solver op = QueryResult.unsat
            let noNeedFalse := q s.solver (.bnot op) = QueryResult.unsat
            if noNeedTrue ∧ noNeedFalse then .ok none
            else if ¬noNeedTrue ∧ ¬noNeedFalse then
              .ok (some
                [{ s with symbolicStack := arg1 :: rest, solver := s.solver ++ [op] },
                 { s with symbolicStack := arg2 :: rest, solver := s.solver ++ [.bnot op] }])
            else if noNeedTrue then
              .ok (some [{ s with symbolicStack := arg2 :: rest, solver := s.solver ++ [.bnot op] }])
            else
              .ok (some [{ s with symbolicStack := arg1 :: rest, solver := s.solver ++ [op] }])
        else .error .unboundLocalError
      else .error .assertError
    | _ => .error .indexError
  else .error .unsupportedInstruction

/- ===== lib/utils.py: the modeled-function tables ===== -/

def MODELED_FUNCS_c : List String :=
  ["__small_printf", "abs", "atof", "atoi", "exp", "getchar",
   "iprintf", "printf", "putchar", "puts", "scanf", "swap",
   "system", "emscripten_resize_heap", "fopen", "vfprintf",
   "open", "exit", "setlocale", "hard_locale", "strstr"]

/-- The Go set of `MODELED_FUNCS`; the source is missing a comma after
`'runtime.nilPanic'`, so Python concatenates the two adjacent string
literals into the single element `runtime.nilPanicruntime.slicePanic`. -/
def MODELED_FUNCS_go : List String :=
  ["fmt.Scanf", "fmt.Printf", "runtime.divideByZeroPanic", "runtime.lookupPanic",
   "runtime.nilPanicruntime.slicePanic",
   "runtime.sliceToArrayPointerPanic", "runtime.unsafeSlicePanic", "runtime.chanMakePanic",
   "runtime.negativeShiftPanic", "runtime.blockingPanic", "runtime.calculateHeapAddresses",
   "memset", "runtime.alloc", "memcpy",
   "syscall/js.valueGet", "runtime.putchar"]

def MODELED_FUNCS_rust : List String := []

def MODELED_FUNCS_wasi : List String :=
  ["args_sizes_get", "args_get", "environ_sizes_get",
   "fd_advise", "fd_fdstat_get", "fd_tell", "fd_seek",
   "fd_close", "fd_read", "fd_write", "proc_exit",
   "fd_prestat_get", "fd_prestat_dir_name", "path_open"]

/-- `is_modeled(func_name, specify_lang=lang)` (the control-flow engine
always passes `specify_lang`). -/
def is_modeled (funcName lang : String) : Bool :=
  if strEq lang "c" then strMem funcName MODELED_FUNCS_c
  else if strEq lang "go" then strMem funcName MODELED_FUNCS_go
  else if strEq lang "rust" then strMem funcName MODELED_FUNCS_rust
  else if strEq lang "wasi" then strMem funcName MODELED_FUNCS_wasi
  else false

/- ===== ControlInstructions.py ===== -/

def TERMINATED_FUNCS : List String := ["__assert_fail", "runtime.divideByZeroPanic"]

def skipCommands : List String := ["loop", "end", "br", "else", "block"]

def termCommands : List String := ["unreachable", "return"]

/-- Modelled from the spec: `readable_internal_func_name` (from
`seewasm.arch.wasm.utils`, not under `src/`) maps an internal function name
to its human-readable counterpart using the recorded index-to-name mapping,
falling back to the name itself. -/
def readableName (m : List (String × String)) (f : String) : String :=
  match m.find? (fun p => strEq p.1 f) with
  | some p => p.2
  | none => f

/-- Per-run configuration and decoder data reaching the control-flow engine
(`Configuration` flags, `analyzer.func_prototypes` as
(name, param string, return string) triples with the unused fourth component
dropped, the element-section mapping, and the active table's base offset). -/
structure Env where
  sourceType : String
  dslFlag : Bool
  readableMap : List (String × String)
  funcPrototypes : List (String × String × String)
  elemIndexToFunc : List (Nat × String)
  elemOffset : Nat

/-- The semantics of a modeled external library/runtime/WASI function: a
collaborator outside this core, invoked in place of a context switch. -/
def ExtModel : Type := String → String → State → Except Err (List State)

/-- The number of arguments the callee pops:
`len(param_str.split(' '))` when the parameter string is non-empty. -/
def numArgOf (paramStr : String) : Nat :=
  if strEq paramStr "" then 0 else pySplitLen paramStr

/-- Step 3 of `store_context`: `for x in range(num_arg):
local_var[num_arg - 1 - x] = arg[x]` (with `arg[x]` the x-th popped
argument, i.e. the x-th element below the former stack top). -/
def assignArgs (lv : List (Nat × SymVal)) (arg : List SymVal) (numArg : Nat) :
    List (Nat × SymVal) :=
  (List.range numArg).foldl
    (fun d x => dictSet d (numArg - 1 - x) (arg.getD x SymVal.pyNone)) lv

/-- The clearing loop of `store_context`:
`for x in range(num_arg, len(local_var)): local_var.pop(x)` with the
KeyError swallowed — `len(local_var)` is evaluated once, before any key is
removed. -/
def clearLocals (lv : List (Nat × SymVal)) (numArg L : Nat) : List (Nat × SymVal) :=
  (List.range' numArg (L - numArg)).foldl (fun d x => dictPop d x) lv

/-- `ControlInstructions.store_context`: pop the callee's arguments, push a
frame saving (caller name, current block, remaining stack, a copy of the
locals, whether a return value is expected), bind the popped arguments to
locals 0..N-1 in reverse pop order, run the clearing loop, and switch the
current function name. -/
def store_context (paramStr returnStr : String) (s : State) (calleeFuncName : String) :
    Except Err State :=
  let numArg := numArgOf paramStr
  if numArg ≤ s.symbolicStack.length then
    let arg := s.symbolicStack.take numArg
    let rest := s.symbolicStack.drop numArg
    let frame : Frame :=
      { funcName := s.currentFuncName
        retBlock := s.currentBlock
        savedStack := rest
        savedLocal := s.localVar
        requireReturn := !strEq returnStr "" }
    let lv1 := assignArgs s.localVar arg numArg
    let lv2 := clearLocals lv1 numArg lv1.length
    .ok { s with
          symbolicStack := rest
          contextStack := frame :: s.contextStack
          localVar := lv2
          currentFuncName := calleeFuncName }
  else .error .indexError

/-- `ControlInstructions.restore_context`: an empty context stack raises the
success termination signal; otherwise pop the saved frame, pop the return
value first when one is expected, restore the caller's function, block,
stack and locals, and push the return value back. -/
def restore_context (s : State) : Except Err State :=
  match s.contextStack with
  | [] => .error .procSuccessTermination
  | frame :: ctxRest =>
    if frame.requireReturn then
      match s.symbolicStack with
      | [] => .error .indexError
      | rv :: _ =>
        .ok { s with
              contextStack := ctxRest
              currentFuncName := frame.funcName
              currentBlock := frame.retBlock
              symbolicStack := rv :: frame.savedStack
              localVar := frame.savedLocal }
    else
      .ok { s with
            contextStack := ctxRest
            currentFuncName := frame.funcName
            currentBlock := frame.retBlock
            symbolicStack := frame.savedStack
            localVar := frame.savedLocal }

/-- `ControlInstructions.deal_with_call`: resolve the callee prototype and
dispatch, in order, to the checker hook, a modeled C/Go/Rust library
function, a modeled WASI import, the terminating-function set, or an
ordinary internal call through `store_context`.  The modeled-rust branch is
a bare `pass`, which leaves `states` unbound, so reaching it would raise
UnboundLocalError at the final `return states` (it is unreachable because
the modeled-rust set is empty). -/
def dealWithCall (env : Env) (ext : ExtModel) (s : State) (fOffset : Nat) :
    Except Err (List State) :=
  match env.funcPrototypes[fOffset]? with
  | none => .error .indexError
  | some (calleeName, paramStr, returnStr) =>
    let rName := readableName env.readableMap calleeName
    if env.dslFlag && strStartsWith rName "checker" then
      match (strSplit rName '$')[1]? with
      | none => .error .indexError
      | some idxTok =>
        match parseIntStr? idxTok.data with
        | none => .error .valueError
        | some _ => .ok [s]
    else if strEq env.sourceType "c" && is_modeled rName "c" then ext "c" rName s
    else if strEq env.sourceType "go" && is_modeled rName "go" then ext "go" rName s
    else if strEq env.sourceType "rust" && is_modeled rName "rust" then
      .error .unboundLocalError
    else if is_modeled rName "wasi" then ext "wasi" rName s
    else if strMem rName TERMINATED_FUNCS then .error .procFailTermination
    else
      match store_context paramStr returnStr s rName with
      | .error e => .error e
      | .ok s1 => .ok [s1]

/-- The condition processing shared by `br_if`/`if`: a bit-vector operand is
turned into the simplified `op != 0`, a boolean operand is used as-is. -/
def brIfCond (c : SymVal) : SymVal :=
  if isBVSym c then simplifySym (z3Ne0 c) else c

/-- The `br_if`/`if` branch of `ControlInstructions.emulate`: pop the
condition, assert it is a bit-vector or a boolean, and fork according to the
concrete/symbolic case analysis, querying the solver through the memoizing
cache for the symbolic case.  When both directions are unsatisfiable the
branch body is `pass`, so the (empty) `states` list is returned. -/
def brIfCore (q : SolverQuery) (s : State) : Except Err (List State) :=
  match s.symbolicStack with
  | [] => .error .indexError
  | c :: rest =>
    if isBVSym c || isBoolSym c then
      let s1 := { s with symbolicStack := rest }
      let op := brIfCond c
      if isTrueSym op then
        .ok [{ s1 with edgeType := "conditional_true_0" }]
      else if isFalseSym op then
        .ok [{ s1 with edgeType := "conditional_false_0" }]
      else
        let noNeedTrue := q s1.solver op = QueryResult.unsat
        let noNeedFalse := q s1.solver (.bnot op) = QueryResult.unsat
        if noNeedTrue ∧ noNeedFalse then .ok []
        else if ¬noNeedTrue ∧ ¬noNeedFalse then
          .ok [{ s1 with edgeType := "conditional_true_0", solver := s1.solver ++ [op] },
               { s1 with edgeType := "conditional_false_0", solver := s1.solver ++ [.bnot op] }]
        else if noNeedTrue then
          .ok [{ s1 with edgeType := "conditional_false_0", solver := s1.solver ++ [.bnot op] }]
        else
          .ok [{ s1 with edgeType := "conditional_true_0", solver := s1.solver ++ [op] }]
    else .error .assertError

/-- First-occurrence-ordered distinct elements (the key order of the
`defaultdict` built by `br_table`). -/
def dedupFO (l : List Nat) : List Nat :=
  l.foldl (fun acc x => if acc.contains x then acc else acc ++ [x]) []

/-- The ascending index list of one `br_table` target
(`target_branch2index[target]`). -/
def idxIndicesOf (l : List Nat) (t : Nat) : List Nat :=
  (l.enum.filter (fun p => p.2 == t)).map (fun p => p.1)

/-- One `br_table` group step: drop a concretely-false group, append a
deep-copied state for a concretely-true or symbolic group (conjoining the
group's disjunctive condition in the symbolic case). -/
def brTableStep (op : SymVal) (s : State) (acc : List State) (t : Nat) (idxs : List Nat) :
    List State :=
  let cond := simplifySym (z3OrList (idxs.map (fun i => simplifySym (z3EqNat op i))))
  if isFalseSym cond then acc
  else if isTrueSym cond then
    acc ++ [{ s with edgeType := "conditional_true_" ++ Nat.repr t }]
  else
    acc ++ [{ s with solver := s.solver ++ [cond],
                     edgeType := "conditional_true_" ++ Nat.repr t }]

/-- The `br_table` branch of `ControlInstructions.emulate`: pop the index,
group the branch targets by destination, emit one deep-copied successor per
group that is not concretely false, then append the current state for the
default/out-of-range condition `Or(op >= n_br, op < 0)` unless it is
concretely false; an empty successor list is an assertion failure.  (z3
raises a sort-mismatch error when the popped index is not a bit-vector,
since `op == i` then compares incompatible sorts.) -/
def brTableCore (operandBytes : List Nat) (s : State) : Except Err (List State) :=
  match s.symbolicStack with
  | [] => .error .indexError
  | op :: rest =>
    let s1 := { s with symbolicStack := rest }
    match operandBytes with
    | [] => .error .indexError
    | nBr :: tail =>
      if isBVSym op then
        let brLis := tail.dropLast
        let groups := (dedupFO brLis).map (fun t => (t, idxIndicesOf brLis t))
        let states :=
          groups.foldl (fun acc g => brTableStep op s1 acc g.1 g.2) []
        let dcond := simplifySym (z3Or2 (z3SgeNat op nBr) (z3Slt0 op))
        let states :=
          if isFalseSym dcond then states
          else if isTrueSym dcond then
            states ++ [{ s1 with edgeType := "conditional_false_0" }]
          else
            states ++ [{ s1 with solver := s1.solver ++ [dcond],
                                 edgeType := "conditional_false_0" }]
        if states.isEmpty then .error .assertError else .ok states
      else .error .z3Error

/-- Parse the `call` operand re-derived from the instruction text: first as
a decimal literal, then (`except ValueError`) as a hexadecimal one. -/
def parseCallOffset? (tok : String) : Option Int :=
  match parseIntStr? tok.data with
  | some i => some i
  | none =>
    let l := tok.data
    let l2 := if charListPfx ['0', 'x'] l then l.drop 2 else l
    (parseHexDigits l2).map (fun n => (n : Int))

/-- `ControlInstructions.emulate`: the dispatcher over the control
mnemonics.  Skip and terminator commands return the state unchanged; `nop`
restores the saved caller context when the instruction carries an xref (the
synthetic function exit); `br_if`/`if` fork; `call_indirect` requires a
concrete table index, resolves it through the element section and falls
through to the ordinary call handling; `br_table` forks per destination
group; `call` re-derives its operand from the instruction text; anything
else is unsupported.  (A negative resolved call offset cannot arise from a
decoded stream and is reported as an index error.) -/
def controlEmulate (env : Env) (ext : ExtModel) (q : SolverQuery)
    (info : InstrInfo) (s : State) : Except Err (List State) :=
  if strMem info.name skipCommands then .ok [s]
  else if strMem info.name termCommands then .ok [s]
  else if strEq info.name "nop" then
    if info.xref then
      match restore_context s with
      | .error e => .error e
      | .ok s1 => .ok [s1]
    else .ok [s]
  else if strEq info.name "br_if" || strEq info.name "if" then
    brIfCore q s
  else if strEq info.name "call_indirect" then
    match s.symbolicStack with
    | [] => .error .indexError
    | op :: rest =>
      if isBVValue op then
        match op with
        | .bv _ v =>
          let s1 := { s with symbolicStack := rest }
          if v < env.elemOffset then .error .keyError
          else
            match dictGet? env.elemIndexToFunc (v - env.elemOffset) with
            | none => .error .keyError
            | some calleeFuncName =>
              match
                (env.funcPrototypes.enum.find?
                  (fun p => strEq calleeFuncName
                    (readableName env.readableMap p.2.1))) with
              | none => .error .exitCalled
              | some (funcOffset, _) =>
                dealWithCall env ext
                  { s1 with callIndirectCallee := calleeFuncName } funcOffset
        | _ => .error .assertError
      else .error .assertError
  else if strEq info.name "br_table" then
    brTableCore info.operandBytes s
  else if strEq info.name "call" then
    match (strSplit info.instrStr ' ')[1]? with
    | none => .error .indexError
    | some tok =>
      match parseCallOffset? tok with
      | none => .error .valueError
      | some i =>
        if i < 0 then .error .indexError
        else dealWithCall env ext s i.toNat
  else .error .unsupportedInstruction

/- ===== Derived measures and concrete instances used by the theorems ===== -/

/-- Length of a successful emulation result (0 for an exception). -/
def resultLength (r : Except Err (List State)) : Nat :=
  match r with
  | .ok l => l.length
  | .error _ => 0

/-- The local bound to a key in the state a call produced (`none` for an
exception or an absent key). -/
def resultLocalGet (r : Except Err State) (k : Nat) : Option SymVal :=
  match r with
  | .ok s => dictGet? s.localVar k
  | .error _ => none

/-- The number of distinct destinations of a `br_table` operand (the number
of groups the defaultdict holds). -/
def numDistinctTargets (operandBytes : List Nat) : Nat :=
  match operandBytes with
  | [] => 0
  | _ :: tail => (dedupFO tail.dropLast).length

/-- Boolean membership in a list of naturals. -/
def natListMem (xs : List Nat) (k : Nat) : Bool := xs.any (fun x => x == k)

/-- A solver stub answering every query `sat` (sound for satisfiable
queries). -/
def qSatOracle : SolverQuery := fun _ _ => QueryResult.sat

/-- A solver stub answering every query `unsat`. -/
def qUnsatOracle : SolverQuery := fun _ _ => QueryResult.unsat

/-- An external-model stub (never consulted on the paths under study). -/
def extNone : ExtModel := fun _ _ _ => .ok []

/-- A minimal environment: C source, no DSL instrumentation, no prototypes. -/
def envC : Env := ⟨"c", false, [], [], [], 0⟩

/-- An empty execution state at the entry of `main`. -/
def stEmpty : State := ⟨[], [], [], [], [], "main", 0, "", ""⟩

def infoBrIf : InstrInfo := ⟨"br_if", [], "br_if 0", false⟩

/-- A `br_table` instruction with three distinct targets and a default. -/
def infoBrTable : InstrInfo := ⟨"br_table", [3, 0, 1, 2, 9], "br_table", false⟩

/-- An opaque symbolic 32-bit operand. -/
def xSym : SymVal := .bvTerm 32 "x" []

def stC1 : State := { stEmpty with symbolicStack := [xSym] }

def stC2 : State := { stEmpty with symbolicStack := [xSym], solver := [SymVal.bfalse] }

def stC2sel : State :=
  { stEmpty with symbolicStack := [xSym, .bv 32 5, .bv 32 9], solver := [SymVal.bfalse] }

def stBrTable : State := { stEmpty with symbolicStack := [xSym] }

/-- Stack for `f64.copysign`: first-popped operand 1.0, second-popped -2.0
(IEEE bit patterns). -/
def stC4a : State :=
  { stEmpty with symbolicStack := [.fp 11 53 0x3FF0000000000000, .fp 11 53 0xC000000000000000] }

/-- Stack for `f32.copysign` with agreeing signs: 1.0 then 2.0. -/
def stC4b : State :=
  { stEmpty with symbolicStack := [.fp 8 24 0x3F800000, .fp 8 24 0x40000000] }

/-- Stack for `f32.copysign` with differing signs: 1.0 then -2.0. -/
def stC4c : State :=
  { stEmpty with symbolicStack := [.fp 8 24 0x3F800000, .fp 8 24 0xC0000000] }

/-- A caller state with a sparse locals map (keys 0 and 5) and one stacked
argument. -/
def stC5 : State :=
  { stEmpty with symbolicStack := [.bv 32 7], localVar := [(0, .bv 32 1), (5, .bv 32 99)] }

/-- The state `store_context "i32" "" stC5 "g"` produces: index 0 bound to
the popped argument, the sparse index 5 still present. -/
def stC5res : State :=
  ⟨[], [(0, .bv 32 7), (5, .bv 32 99)], [], [],
   [⟨"main", 0, [], [(0, .bv 32 1), (5, .bv 32 99)], false⟩], "g", 0, "", ""⟩

/-- The locals map of `stC5` right after parameter binding. -/
def stC5lv1 : List (Nat × SymVal) :=
  assignArgs stC5.localVar (List.take (numArgOf "i32") stC5.symbolicStack) (numArgOf "i32")

/-- A caller state for the call/return round trip: three stacked values, one
local. -/
def stC6 : State :=
  { stEmpty with symbolicStack := [.bv 32 1, .bv 32 2, .bv 32 3], localVar := [(0, .bv 32 8)] }

/-- The state `store_context "i32 i32" "i32" stC6 "g"` produces. -/
def stC6s1 : State :=
  ⟨[.bv 32 3], [(0, .bv 32 2), (1, .bv 32 1)], [], [],
   [⟨"main", 0, [.bv 32 3], [(0, .bv 32 8)], true⟩], "g", 0, "", ""⟩

/-- A possible state at the callee's exit: return value 42 on top of
leftover callee stack, callee locals about to be discarded by the restore. -/
def stC6mid : State :=
  ⟨[.bv 32 42, .bv 32 13], [(0, .bv 32 77)], [], [], stC6s1.contextStack, "g", 9, "edge", ""⟩

/-- The caller state after the round trip: return value on the remaining
caller stack, caller locals restored. -/
def stC6out : State :=
  ⟨[.bv 32 42, .bv 32 3], [(0, .bv 32 8)], [], [], [], "main", 0, "edge", ""⟩

/-- A state whose local 2 holds the `None` sentinel. -/
def stC9 : State := { stEmpty with localVar := [(2, SymVal.pyNone)] }

/-- A 32-bit NaN bit pattern with a non-standard payload. -/
def nanPayload : Nat := 0x7FC00001

def stC8 : State := { stEmpty with symbolicStack := [.bv 32 nanPayload] }

/-- Two stacked concrete operands for an `i32.add`. -/
def stAdd : State := { stEmpty with symbolicStack := [.bv 32 1, .bv 32 2] }

/- ===== Claim theorems ===== -/

/-- C7: emulating `select` on a stack where the constant 9 was pushed first,
5 second and the concrete 32-bit condition 0 on top returns exactly one
successor state whose top of stack is the constant 5. -/
theorem c7_select_concrete_false_picks_true_value (q : SolverQuery) (s : State)
    (rest : List SymVal) :
    parametricEmulate q "select"
      { s with symbolicStack := SymVal.bv 32 0 :: SymVal.bv 32 5 :: SymVal.bv 32 9 :: rest }
    = .ok (some [{ s with symbolicStack := SymVal.bv 32 5 :: rest }]) := rfl

/-- C8: reinterpreting any 32-bit pattern (NaN payloads included) as an f32
and back is the identity on the pushed bit pattern, with one successor state
at each step. -/
theorem c8_reinterpret_roundtrip (s : State) (b : Nat) (rest : List SymVal)
    (hb : b < 2 ^ 32) :
    conversionEmulate "f32.reinterpret/i32"
        { s with symbolicStack := SymVal.bv 32 b :: rest }
      = .ok [{ s with symbolicStack := SymVal.fp 8 24 b :: rest }]
    ∧ conversionEmulate "i32.reinterpret/f32"
        { s with symbolicStack := SymVal.fp 8 24 b :: rest }
      = .ok [{ s with symbolicStack := SymVal.bv 32 b :: rest }] :=
  ⟨rfl, rfl⟩

/-- C8 witness: the round trip at the NaN bit pattern 0x7FC00001. -/
theorem c8_reinterpret_roundtrip_witness :
    nanPayload < 2 ^ 32
    ∧ (conversionEmulate "f32.reinterpret/i32" stC8
        = .ok [{ stEmpty with symbolicStack := [SymVal.fp 8 24 nanPayload] }]
      ∧ conversionEmulate "i32.reinterpret/f32"
          { stEmpty with symbolicStack := [SymVal.fp 8 24 nanPayload] }
        = .ok [{ stEmpty with symbolicStack := [SymVal.bv 32 nanPayload] }]) :=
  ⟨by decide, c8_reinterpret_roundtrip stEmpty nanPayload [] (by decide)⟩

/-- C10: `clz`/`ctz` push the operand width and `popcnt` pushes 0, at both
widths, for an arbitrary popped operand — the operand is never inspected. -/
theorem c10_count_instructions_ignore_operand (s : State) (v : SymVal)
    (rest : List SymVal) :
    arithmeticEmulate "i32.clz" { s with symbolicStack := v :: rest }
      = .ok [{ s with symbolicStack := SymVal.bv 32 32 :: rest }]
    ∧ arithmeticEmulate "i32.ctz" { s with symbolicStack := v :: rest }
      = .ok [{ s with symbolicStack := SymVal.bv 32 32 :: rest }]
    ∧ arithmeticEmulate "i64.clz" { s with symbolicStack := v :: rest }
      = .ok [{ s with symbolicStack := SymVal.bv 64 64 :: rest }]
    ∧ arithmeticEmulate "i64.ctz" { s with symbolicStack := v :: rest }
      = .ok [{ s with symbolicStack := SymVal.bv 64 64 :: rest }]
    ∧ arithmeticEmulate "i32.popcnt" { s with symbolicStack := v :: rest }
      = .ok [{ s with symbolicStack := SymVal.bv 32 0 :: rest }]
    ∧ arithmeticEmulate "i64.popcnt" { s with symbolicStack := v :: rest }
      = .ok [{ s with symbolicStack := SymVal.bv 64 0 :: rest }] :=
  ⟨rfl, rfl, rfl, rfl, rfl, rfl⟩

/-- C4: evaluation of the copysign branch at concrete operands.
`f64.copysign` (operands 1.0 and -2.0, differing signs) raises
UnboundLocalError instead of pushing -1.0; `f32.copysign` with agreeing
signs (1.0 and 2.0) raises UnboundLocalError instead of pushing 1.0
unchanged; only the differing-signs `f32` case behaves as specified,
pushing the negated first-popped operand. -/
theorem c4_copysign_eval :
    floatArithEmulate "f64.copysign" stC4a = .error .unboundLocalError
    ∧ floatArithEmulate "f32.copysign" stC4b = .error .unboundLocalError
    ∧ floatArithEmulate "f32.copysign" stC4c
      = .ok [{ stEmpty with symbolicStack := [SymVal.fp 8 24 0xBF800000] }] :=
  ⟨rfl, rfl, rfl⟩

/-- C2 counterexample: with the path constraint `False` (so that neither the
condition nor its negation is satisfiable, and the solver reports both
queries unsat), `br_if` returns an empty successor list and `select` falls
off the end of the method (the implicit Python `None`) — no internal error
is reported. -/
theorem c2_counterexample :
    controlEmulate envC extNone qUnsatOracle infoBrIf stC2 = .ok []
    ∧ parametricEmulate qUnsatOracle "select" stC2sel = .ok none
    ∧ ¬ SatPC [SymVal.bfalse] (brIfCond xSym)
    ∧ ¬ SatPC [SymVal.bfalse] (SymVal.bnot (brIfCond xSym)) := by
  refine ⟨rfl, rfl, ?_, ?_⟩ <;>
    · rintro ⟨ρ, hpc, -⟩
      simp [evalPC, evalB] at hpc

/-- C3 counterexample: a `br_table` over three distinct targets plus the
default, with a symbolic index, yields four successor states — more than
two. -/
theorem c3_counterexample :
    resultLength (controlEmulate envC extNone qSatOracle infoBrTable stBrTable) = 4 := rfl

/-- C5 counterexample: a caller whose locals map holds the sparse keys
{0, 5} calls a callee with one parameter; index 5 is ≥ N = 1 and present in
the caller's map, yet it is still present (bound to its old value) in the
callee's locals map after `store_context`, because the clearing loop only
runs up to `len(local_var)` = 2. -/
theorem c5_counterexample :
    numArgOf "i32" = 1
    ∧ dictHas stC5.localVar 5 = true
    ∧ resultLocalGet (store_context "i32" "" stC5 "g") 5 = some (SymVal.bv 32 99) :=
  ⟨rfl, rfl, rfl⟩

/-- C9: `get_local` on an index whose stored value is the `None` sentinel
(the code's own notion of an uninitialized local — `local_var.get(op, None)
is not None` fails) pushes that stored sentinel and returns one state,
raising no uninitialized-variable error. -/
theorem c9_get_local_uninitialized_pushes_sentinel (s : State)
    (operandBytes : List Nat)
    (h : dictGet? s.localVar (leFromBytes (stripMarker operandBytes))
          = some SymVal.pyNone) :
    variableEmulate "get_local" operandBytes s
      = .ok [{ s with symbolicStack := SymVal.pyNone :: s.symbolicStack }] := by
  have e1 : strEq "get_local" "get_local" = true := rfl
  simp [variableEmulate, h, e1]

/-- C9 witness: local 2 holds the sentinel; `get_local 2` pushes it. -/
theorem c9_witness :
    dictGet? stC9.localVar (leFromBytes (stripMarker [2])) = some SymVal.pyNone
    ∧ variableEmulate "get_local" [2] stC9
      = .ok [{ stC9 with symbolicStack := [SymVal.pyNone] }] :=
  ⟨rfl, c9_get_local_uninitialized_pushes_sentinel stC9 [2] rfl⟩

/-- C1: when `br_if`/`if` pops a condition that is neither concretely true
nor concretely false and both (path-constraint AND condition) and
(path-constraint AND NOT condition) are satisfiable (so the solver reports
neither query unsat), emulation returns exactly two successor states that
agree with the parent everywhere except that the condition is conjoined to
the first one's solver and its negation to the second one's; the two added
constraints are mutually exclusive and jointly exhaustive under every
valuation satisfying the parent's path constraint. -/
theorem c1_br_if_symbolic_fork
    (env : Env) (ext : ExtModel) (q : SolverQuery) (info : InstrInfo) (s : State)
    (c : SymVal) (rest : List SymVal)
    (hname : info.name = "br_if" ∨ info.name = "if")
    (hstk : s.symbolicStack = c :: rest)
    (hcb : (isBVSym c || isBoolSym c) = true)
    (ht : isTrueSym (brIfCond c) = false)
    (hf : isFalseSym (brIfCond c) = false)
    (hsat1 : SatPC s.solver (brIfCond c))
    (hsat2 : SatPC s.solver (SymVal.bnot (brIfCond c)))
    (hq1 : q s.solver (brIfCond c) ≠ QueryResult.unsat)
    (hq2 : q s.solver (SymVal.bnot (brIfCond c)) ≠ QueryResult.unsat) :
    controlEmulate env ext q info s =
      .ok [{ s with
             symbolicStack := rest
             edgeType := "conditional_true_0"
             solver := s.solver ++ [brIfCond c] },
           { s with
             symbolicStack := rest
             edgeType := "conditional_false_0"
             solver := s.solver ++ [SymVal.bnot (brIfCond c)] }]
    ∧ ∀ ρ, evalPC ρ s.solver = true →
        (evalB ρ (brIfCond c) = true ∨ evalB ρ (SymVal.bnot (brIfCond c)) = true)
        ∧ ¬(evalB ρ (brIfCond c) = true ∧ evalB ρ (SymVal.bnot (brIfCond c)) = true) := by
  constructor
  · have hroute : controlEmulate env ext q info s = brIfCore q s := by
      obtain ⟨n, ob, istr, xr⟩ := info
      rcases hname with h | h <;> (simp only at h; subst h; rfl)
    rw [hroute]
    simp only [brIfCore, hstk, hcb]
    simp only [ht, hf]
    simp [hq1, hq2]
  · intro ρ _
    constructor
    · cases hEB : evalB ρ (brIfCond c) <;> simp [evalB, hEB]
    · rintro ⟨h1, h2⟩
      simp [evalB, h1] at h2

/-- C1 witness: an unconstrained symbolic 32-bit condition with an empty
path constraint forks into the two expected states. -/
theorem c1_witness :
    controlEmulate envC extNone qSatOracle infoBrIf stC1 =
      .ok [{ stEmpty with
             edgeType := "conditional_true_0"
             solver := [brIfCond xSym] },
           { stEmpty with
             edgeType := "conditional_false_0"
             solver := [SymVal.bnot (brIfCond xSym)] }] :=
  (c1_br_if_symbolic_fork envC extNone qSatOracle infoBrIf stC1 xSym []
    (Or.inl rfl) rfl rfl rfl rfl
    ⟨fun _ _ => true, rfl, rfl⟩
    ⟨fun _ _ => false, rfl, rfl⟩
    (fun h => QueryResult.noConfusion h)
    (fun h => QueryResult.noConfusion h)).1

/-- C2 amended: when a `br_if`/`if` or symbolic `select` condition is
symbolic and the solver reports both (path-constraint AND condition) and
(path-constraint AND NOT condition) unsatisfiable, no internal error is
reported: `br_if`/`if` emulation returns an empty successor list (the state
is silently dropped) and `select` emulation returns no state list at all
(the Python method falls through and returns `None`). -/
theorem c2_amended :
    (∀ (env : Env) (ext : ExtModel) (q : SolverQuery) (info : InstrInfo)
       (s : State) (c : SymVal) (rest : List SymVal),
      info.name = "br_if" ∨ info.name = "if" →
      s.symbolicStack = c :: rest →
      (isBVSym c || isBoolSym c) = true →
      isTrueSym (brIfCond c) = false →
      isFalseSym (brIfCond c) = false →
      q s.solver (brIfCond c) = QueryResult.unsat →
      q s.solver (SymVal.bnot (brIfCond c)) = QueryResult.unsat →
      controlEmulate env ext q info s = .ok [])
    ∧ (∀ (q : SolverQuery) (s : State) (a0 a1 a2 : SymVal) (rest : List SymVal),
      s.symbolicStack = a0 :: a1 :: a2 :: rest →
      isBVSym a0 = true →
      isTrueSym (simplifySym (z3Eq0 a0)) = false →
      isFalseSym (simplifySym (z3Eq0 a0)) = false →
      q s.solver (simplifySym (z3Eq0 a0)) = QueryResult.unsat →
      q s.solver (SymVal.bnot (simplifySym (z3Eq0 a0))) = QueryResult.unsat →
      parametricEmulate q "select" s = .ok none) := by
  constructor
  · intro env ext q info s c rest hname hstk hcb ht hf hq1 hq2
    have hroute : controlEmulate env ext q info s = brIfCore q s := by
      obtain ⟨n, ob, istr, xr⟩ := info
      rcases hname with h | h <;> (simp only at h; subst h; rfl)
    rw [hroute]
    simp only [brIfCore, hstk, hcb]
    simp only [ht, hf]
    simp [hq1, hq2]
  · intro q s a0 a1 a2 rest hstk hbv ht hf hq1 hq2
    have e1 : strEq "select" "drop" = false := rfl
    have e2 : strEq "select" "select" = true := rfl
    simp only [parametricEmulate, e1, e2, hstk, hbv]
    simp only [ht, hf]
    simp [hq1, hq2, isBoolSym]

/-- C2 amended witness: the concrete both-unsatisfiable instances. -/
theorem c2_amended_witness :
    controlEmulate envC extNone qUnsatOracle infoBrIf stC2 = .ok []
    ∧ parametricEmulate qUnsatOracle "select" stC2sel = .ok none :=
  ⟨c2_amended.1 envC extNone qUnsatOracle infoBrIf stC2 xSym []
      (Or.inl rfl) rfl rfl rfl rfl rfl rfl,
   c2_amended.2 qUnsatOracle stC2sel xSym (.bv 32 5) (.bv 32 9) []
      rfl rfl rfl rfl rfl rfl⟩

/-- C6: after `store_context` pushes the call frame for a callee with P
parameters and a declared return value, restoring that frame from any
callee-exit state (same context stack, some return value on top) yields the
pre-call stack with the P arguments replaced by exactly that one return
value on top, and the caller's locals map restored verbatim (the caller's
function name and block are restored as well). -/
theorem c6_call_return_roundtrip
    (s s1 : State) (paramStr returnStr callee : String)
    (hok : store_context paramStr returnStr s callee = .ok s1)
    (hr : strEq returnStr "" = false)
    (r : SymVal) (midStack : List SymVal) (midLocal : List (Nat × SymVal))
    (midGlobals : List (Nat × GlobalVal)) (midSolver : List SymVal)
    (midFunc : String) (midBlock : Nat) (midEdge midCIC : String) :
    restore_context
      ⟨r :: midStack, midLocal, midGlobals, midSolver, s1.contextStack,
       midFunc, midBlock, midEdge, midCIC⟩
      = .ok ⟨r :: s.symbolicStack.drop (numArgOf paramStr), s.localVar,
             midGlobals, midSolver, s.contextStack, s.currentFuncName,
             s.currentBlock, midEdge, midCIC⟩ := by
  by_cases hle : numArgOf paramStr ≤ s.symbolicStack.length
  · simp only [store_context, hle, if_true, Except.ok.injEq] at hok
    subst hok
    simp [restore_context, hr]
  · simp only [store_context, hle, if_false] at hok
    exact absurd hok (by simp)

/-- C6 witness: a call with two i32 parameters and one return value,
followed by a restore from a callee-exit state with return value 42. -/
theorem c6_witness :
    store_context "i32 i32" "i32" stC6 "g" = .ok stC6s1
    ∧ restore_context stC6mid = .ok stC6out :=
  ⟨rfl,
   c6_call_return_roundtrip stC6 stC6s1 "i32 i32" "i32" "g" rfl rfl
     (.bv 32 42) [.bv 32 13] [(0, .bv 32 77)] [] [] "g" 9 "edge" ""⟩

/- ===== Dict and loop lemmas ===== -/

theorem dictGet?_dictSet_self {α : Type} (d : List (Nat × α)) (k : Nat) (v : α) :
    dictGet? (dictSet d k v) k = some v := by
  induction d with
  | nil => simp [dictSet, dictGet?]
  | cons p t ih =>
    by_cases h : p.1 = k
    · simp [dictSet, dictGet?, h]
    · simp [dictSet, dictGet?, h, ih]

theorem dictGet?_dictSet_ne {α : Type} (d : List (Nat × α)) (k k₁ : Nat) (v : α)
    (h : k₁ ≠ k) : dictGet? (dictSet d k v) k₁ = dictGet? d k₁ := by
  have hk : ¬(k = k₁) := fun e => h e.symm
  induction d with
  | nil => simp [dictSet, dictGet?, hk]
  | cons p t ih =>
    by_cases hp : p.1 = k
    · have hp1 : ¬(p.1 = k₁) := by rw [hp]; exact hk
      simp [dictSet, dictGet?, hp, hk, hp1]
    · simp only [dictSet, hp, if_false]
      by_cases hp1 : p.1 = k₁ <;> simp [dictGet?, hp1, ih]

theorem dictHas_eq_isSome {α : Type} (d : List (Nat × α)) (k : Nat) :
    dictHas d k = (dictGet? d k).isSome := by
  induction d with
  | nil => simp [dictHas, dictGet?]
  | cons p t ih =>
    by_cases h : p.1 = k <;>
      simp [dictHas, dictGet?, h, ← ih, List.any_cons]

theorem dictGet?_dictPop {α : Type} (d : List (Nat × α)) (x k : Nat) :
    dictGet? (dictPop d x) k = if k = x then none else dictGet? d k := by
  induction d with
  | nil => simp [dictPop, dictGet?]
  | cons p t ih =>
    by_cases hpx : p.1 = x
    · have hstep : dictPop (p :: t) x = dictPop t x := by
        simp [dictPop, List.filter_cons, hpx]
      rw [hstep, ih]
      by_cases hkx : k = x
      · simp [hkx]
      · have hpk : ¬(p.1 = k) := by rw [hpx]; exact fun e => hkx e.symm
        simp [dictGet?, hkx, hpk]
    · have hstep : dictPop (p :: t) x = p :: dictPop t x := by
        simp [dictPop, List.filter_cons, hpx]
      rw [hstep]
      by_cases hpk : p.1 = k
      · have hkx : ¬(k = x) := fun e => hpx (hpk.trans e)
        simp [dictGet?, hpk, hkx]
      · simp [dictGet?, hpk, ih]

theorem dictGet?_foldl_dictPop {α : Type} (xs : List Nat) (d : List (Nat × α)) (k : Nat) :
    dictGet? (xs.foldl (fun acc x => dictPop acc x) d) k
      = if natListMem xs k then none else dictGet? d k := by
  induction xs generalizing d with
  | nil => simp [natListMem]
  | cons x xs ih =>
    simp only [List.foldl_cons]
    rw [ih, dictGet?_dictPop]
    have hcons : natListMem (x :: xs) k = ((x == k) || natListMem xs k) := rfl
    rw [hcons]
    by_cases hm : natListMem xs k
    · simp [hm]
    · by_cases hkx : x = k
      · simp [hm, hkx]
      · have h2 : ¬(k = x) := fun e => hkx e.symm
        simp [hm, hkx, h2]

theorem natListMem_range' (a n k : Nat) :
    natListMem (List.range' a n) k = decide (a ≤ k ∧ k < a + n) := by
  induction n generalizing a with
  | zero =>
    have hc : ¬(a ≤ k ∧ k < a + 0) := by omega
    simp [natListMem, hc]
  | succ n ih =>
    rw [List.range'_succ]
    have hcons : natListMem (a :: List.range' (a + 1) n) k
        = ((a == k) || natListMem (List.range' (a + 1) n) k) := rfl
    rw [hcons, ih]
    by_cases hak : a = k
    · have hc : a ≤ k ∧ k < a + (n + 1) := by omega
      simp [hak, hc]
    · have h2 : (a == k) = false := by simp [hak]
      rw [h2, Bool.false_or, decide_eq_decide]
      omega

theorem assignArgs_get_aux (arg : List SymVal) (n : Nat) (lv : List (Nat × SymVal)) :
    ∀ m, m ≤ n → ∀ i,
      dictGet? ((List.range m).foldl
          (fun d x => dictSet d (n - 1 - x) (arg.getD x SymVal.pyNone)) lv) i
        = if n - m ≤ i ∧ i < n then some (arg.getD (n - 1 - i) SymVal.pyNone)
          else dictGet? lv i := by
  intro m
  induction m with
  | zero =>
    intro _ i
    have hc : ¬(n ≤ i ∧ i < n) := by omega
    simp [hc]
  | succ m ih =>
    intro hm i
    rw [List.range_succ, List.foldl_append, List.foldl_cons, List.foldl_nil]
    by_cases hi : i = n - 1 - m
    · rw [hi, dictGet?_dictSet_self]
      have h1 : n - (m + 1) ≤ n - 1 - m ∧ n - 1 - m < n := by omega
      have h2 : n - 1 - (n - 1 - m) = m := by omega
      rw [if_pos h1, h2]
    · rw [dictGet?_dictSet_ne _ _ _ _ hi, ih (by omega) i]
      have hiff : (n - m ≤ i ∧ i < n) ↔ (n - (m + 1) ≤ i ∧ i < n) := by omega
      exact if_congr hiff rfl rfl

theorem assignArgs_get_lt (lv : List (Nat × SymVal)) (arg : List SymVal) (n i : Nat)
    (hi : i < n) :
    dictGet? (assignArgs lv arg n) i = some (arg.getD (n - 1 - i) SymVal.pyNone) := by
  have h := assignArgs_get_aux arg n lv n (le_refl n) i
  have hc : n - n ≤ i ∧ i < n := by omega
  simpa [assignArgs, hc] using h

theorem assignArgs_get_ge (lv : List (Nat × SymVal)) (arg : List SymVal) (n k : Nat)
    (hk : n ≤ k) :
    dictGet? (assignArgs lv arg n) k = dictGet? lv k := by
  have h := assignArgs_get_aux arg n lv n (le_refl n) k
  have hc : ¬(k < n) := by omega
  simpa [assignArgs, hc] using h

theorem clearLocals_get (lv : List (Nat × SymVal)) (n L k : Nat) :
    dictGet? (clearLocals lv n L) k
      = if n ≤ k ∧ k < L then none else dictGet? lv k := by
  unfold clearLocals
  rw [dictGet?_foldl_dictPop, natListMem_range']
  by_cases h : n ≤ k ∧ k < n + (L - n)
  · have h2 : n ≤ k ∧ k < L := by omega
    simp [h, h2]
  · have h2 : ¬(n ≤ k ∧ k < L) := by omega
    simp [h, h2]

/-- C5 amended: after an internal call with N parameters, the callee's
locals bind index i (for every i < N) to the argument popped (N-i)-th, i.e.
to the stack element at depth N-1-i of the pre-call stack; and among the
caller's indices k ≥ N, exactly those with k < L are cleared, where L is the
number of entries the locals map holds right after the parameters are bound
— caller indices k ≥ max(N, L) (possible when the caller's key set is
sparse) survive into the callee's map. -/
theorem c5_amended (s s1 : State) (paramStr returnStr callee : String)
    (hok : store_context paramStr returnStr s callee = .ok s1) :
    (∀ i, i < numArgOf paramStr →
      dictGet? s1.localVar i = s.symbolicStack[numArgOf paramStr - 1 - i]?)
    ∧ (∀ k, numArgOf paramStr ≤ k →
      dictHas s1.localVar k
        = (dictHas s.localVar k &&
           decide ((assignArgs s.localVar
               (s.symbolicStack.take (numArgOf paramStr))
               (numArgOf paramStr)).length ≤ k))) := by
  by_cases hle : numArgOf paramStr ≤ s.symbolicStack.length
  · simp only [store_context, hle, if_true, Except.ok.injEq] at hok
    subst hok
    constructor
    · intro i hi
      dsimp only
      rw [clearLocals_get]
      have hc : ¬(numArgOf paramStr ≤ i ∧
          i < (assignArgs s.localVar (List.take (numArgOf paramStr) s.symbolicStack)
                (numArgOf paramStr)).length) := by omega
      rw [if_neg hc, assignArgs_get_lt _ _ _ _ hi,
          List.getD_eq_getElem?_getD, List.getElem?_take, if_pos (by omega)]
      have hlt : numArgOf paramStr - 1 - i < s.symbolicStack.length := by omega
      rw [List.getElem?_eq_getElem hlt]
      rfl
    · intro k hk
      dsimp only
      rw [dictHas_eq_isSome, clearLocals_get, dictHas_eq_isSome]
      by_cases hkL : k < (assignArgs s.localVar
          (List.take (numArgOf paramStr) s.symbolicStack) (numArgOf paramStr)).length
      · rw [if_pos ⟨hk, hkL⟩]
        have hd : ¬((assignArgs s.localVar
            (List.take (numArgOf paramStr) s.symbolicStack)
            (numArgOf paramStr)).length ≤ k) := by omega
        simp [hd]
      · rw [if_neg (by omega), assignArgs_get_ge _ _ _ _ hk]
        have hd : (assignArgs s.localVar
            (List.take (numArgOf paramStr) s.symbolicStack)
            (numArgOf paramStr)).length ≤ k := by omega
        simp [hd]
  · simp only [store_context, hle, if_false] at hok
    exact absurd hok (by simp)

/-- C5 amended witness: the sparse-keys instance — index 0 is bound to the
single popped argument; index 5 survives, index 1 would have been cleared
had it been present. -/
theorem c5_amended_witness :
    dictGet? stC5res.localVar 0 = stC5.symbolicStack[0]?
    ∧ dictHas stC5res.localVar 5
      = (dictHas stC5.localVar 5 && decide (stC5lv1.length ≤ 5)) :=
  ⟨(c5_amended stC5 stC5res "i32" "" "g" rfl).1 0 (by decide),
   (c5_amended stC5 stC5res "i32" "" "g" rfl).2 5 (by decide)⟩

/- ===== Successor-count lemmas ===== -/

theorem charListEq_eq : ∀ l1 l2 : List Char, charListEq l1 l2 = true → l1 = l2 := by
  intro l1
  induction l1 with
  | nil => intro l2 h; cases l2 with
    | nil => rfl
    | cons b bs => simp [charListEq] at h
  | cons a as ih =>
    intro l2 h
    cases l2 with
    | nil => simp [charListEq] at h
    | cons b bs =>
      simp only [charListEq, Bool.and_eq_true, beq_iff_eq] at h
      rw [h.1, ih bs h.2]

theorem strEq_eq (a b : String) (h : strEq a b = true) : a = b := by
  obtain ⟨la⟩ := a
  obtain ⟨lb⟩ := b
  exact congrArg String.mk (charListEq_eq la lb h)

theorem intArithEmulate_len (name : String) (s : State) (l : List State)
    (h : intArithEmulate name s = .ok l) : l.length ≤ 2 := by
  simp only [intArithEmulate] at h
  repeat' split at h
  all_goals (try (injection h with h2; subst h2; simp))
  all_goals (injection h)

theorem floatArithEmulate_len (name : String) (s : State) (l : List State)
    (h : floatArithEmulate name s = .ok l) : l.length ≤ 2 := by
  simp only [floatArithEmulate] at h
  repeat' split at h
  all_goals (try (injection h with h2; subst h2; simp))
  all_goals (injection h)

theorem arithmeticEmulate_len (name : String) (s : State) (l : List State)
    (h : arithmeticEmulate name s = .ok l) : l.length ≤ 2 := by
  simp only [arithmeticEmulate] at h
  split at h
  · exact intArithEmulate_len name s l h
  · exact floatArithEmulate_len name s l h

theorem bitwiseEmulate_len (name : String) (s : State) (l : List State)
    (h : bitwiseEmulate name s = .ok l) : l.length ≤ 2 := by
  simp only [bitwiseEmulate] at h
  repeat' split at h
  all_goals (try (injection h with h2; subst h2; simp))
  all_goals (injection h)

theorem convCase_len (s : State) (pop : State → Except Err (SymVal × List SymVal))
    (mk : SymVal → SymVal) (l : List State) (h : convCase s pop mk = .ok l) :
    l.length ≤ 2 := by
  unfold convCase at h
  split at h
  · exact Except.noConfusion h
  · injection h with h2; subst h2; simp

theorem conversionEmulate_len (name : String) (s : State) (l : List State)
    (h : conversionEmulate name s = .ok l) : l.length ≤ 2 := by
  obtain ⟨stk, lv, gl, sv, cs, fn, bb, ed, cic⟩ := s
  unfold conversionEmulate at h
  by_cases hc0 : strEq name "i32.wrap/i64" = true
  · rw [if_pos hc0] at h; exact convCase_len _ _ _ _ h
  rw [if_neg hc0] at h
  by_cases hc1 : strEq name "i64.extend_s/i32" = true
  · rw [if_pos hc1] at h; exact convCase_len _ _ _ _ h
  rw [if_neg hc1] at h
  by_cases hc2 : strEq name "i64.extend_u/i32" = true
  · rw [if_pos hc2] at h; exact convCase_len _ _ _ _ h
  rw [if_neg hc2] at h
  by_cases hc3 : strEq name "i32.trunc_s/f32" = true
  · rw [if_pos hc3] at h; exact convCase_len _ _ _ _ h
  rw [if_neg hc3] at h
  by_cases hc4 : strEq name "i32.trunc_s/f64" = true
  · rw [if_pos hc4] at h; exact convCase_len _ _ _ _ h
  rw [if_neg hc4] at h
  by_cases hc5 : strEq name "i64.trunc_s/f32" = true
  · rw [if_pos hc5] at h; exact convCase_len _ _ _ _ h
  rw [if_neg hc5] at h
  by_cases hc6 : strEq name "i64.trunc_s/f64" = true
  · rw [if_pos hc6] at h; exact convCase_len _ _ _ _ h
  rw [if_neg hc6] at h
  by_cases hc7 : strEq name "i32.trunc_u/f32" = true
  · rw [if_pos hc7] at h; exact convCase_len _ _ _ _ h
  rw [if_neg hc7] at h
  by_cases hc8 : strEq name "i32.trunc_u/f64" = true
  · rw [if_pos hc8] at h; exact convCase_len _ _ _ _ h
  rw [if_neg hc8] at h
  by_cases hc9 : strEq name "i64.trunc_u/f32" = true
  · rw [if_pos hc9] at h; exact convCase_len _ _ _ _ h
  rw [if_neg hc9] at h
  by_cases hc10 : strEq name "i64.trunc_u/f64" = true
  · rw [if_pos hc10] at h; exact convCase_len _ _ _ _ h
  rw [if_neg hc10] at h
  by_cases hc11 : strEq name "f32.demote/f64" = true
  · rw [if_pos hc11] at h; exact convCase_len _ _ _ _ h
  rw [if_neg hc11] at h
  by_cases hc12 : strEq name "f64.promote/f32" = true
  · rw [if_pos hc12] at h; exact convCase_len _ _ _ _ h
  rw [if_neg hc12] at h
  by_cases hc13 : strEq name "f32.convert_s/i32" = true
  · rw [if_pos hc13] at h; exact convCase_len _ _ _ _ h
  rw [if_neg hc13] at h
  by_cases hc14 : strEq name "f32.convert_s/i64" = true
  · rw [if_pos hc14] at h; exact convCase_len _ _ _ _ h
  rw [if_neg hc14] at h
  by_cases hc15 : strEq name "f64.convert_s/i32" = true
  · rw [if_pos hc15] at h; exact convCase_len _ _ _ _ h
  rw [if_neg hc15] at h
  by_cases hc16 : strEq name "f64.convert_s/i64" = true
  · rw [if_pos hc16] at h; exact convCase_len _ _ _ _ h
  rw [if_neg hc16] at h
  by_cases hc17 : strEq name "f32.convert_u/i32" = true
  · rw [if_pos hc17] at h; exact convCase_len _ _ _ _ h
  rw [if_neg hc17] at h
  by_cases hc18 : strEq name "f32.convert_u/i64" = true
  · rw [if_pos hc18] at h; exact convCase_len _ _ _ _ h
  rw [if_neg hc18] at h
  by_cases hc19 : strEq name "f64.convert_u/i32" = true
  · rw [if_pos hc19] at h; exact convCase_len _ _ _ _ h
  rw [if_neg hc19] at h
  by_cases hc20 : strEq name "f64.convert_u/i64" = true
  · rw [if_pos hc20] at h; exact convCase_len _ _ _ _ h
  rw [if_neg hc20] at h
  by_cases hc21 : strEq name "i32.reinterpret/f32" = true
  · rw [if_pos hc21] at h; exact convCase_len _ _ _ _ h
  rw [if_neg hc21] at h
  by_cases hc22 : strEq name "i64.reinterpret/f64" = true
  · rw [if_pos hc22] at h; exact convCase_len _ _ _ _ h
  rw [if_neg hc22] at h
  by_cases hc23 : strEq name "f32.reinterpret/i32" = true
  · rw [if_pos hc23] at h; exact convCase_len _ _ _ _ h
  rw [if_neg hc23] at h
  by_cases hc24 : strEq name "f64.reinterpret/i64" = true
  · rw [if_pos hc24] at h; exact convCase_len _ _ _ _ h
  rw [if_neg hc24] at h
  by_cases hc25 : strEq name "i32.extend_s/i8" = true
  · rw [if_pos hc25] at h; exact convCase_len _ _ _ _ h
  rw [if_neg hc25] at h
  cases stk <;> exact Except.noConfusion h

theorem variableEmulate_len (name : String) (operandBytes : List Nat) (s : State)
    (l : List State) (h : variableEmulate name operandBytes s = .ok l) :
    l.length ≤ 2 := by
  simp only [variableEmulate] at h
  repeat' split at h
  all_goals (try (injection h with h2; subst h2; simp))
  all_goals (injection h)

theorem constantEmulate_len (instrStr : String) (s : State) (l : List State)
    (h : constantEmulate instrStr s = .ok l) : l.length ≤ 2 := by
  simp only [constantEmulate] at h
  repeat' split at h
  all_goals (try (injection h with h2; subst h2; simp))
  all_goals (injection h)

theorem parametricEmulate_len (q : SolverQuery) (name : String) (s : State)
    (r : Option (List State)) (h : parametricEmulate q name s = .ok r) :
    ∀ l, r = some l → l.length ≤ 2 := by
  simp only [parametricEmulate] at h
  repeat' split at h
  all_goals (try (injection h with h2; subst h2))
  all_goals (try (injection h))
  all_goals intro l hl
  all_goals (try (injection hl with h3; subst h3; simp))
  all_goals (injection hl)

theorem brIfCore_len (q : SolverQuery) (s : State) (l : List State)
    (h : brIfCore q s = .ok l) : l.length ≤ 2 := by
  simp only [brIfCore] at h
  repeat' split at h
  all_goals (try (injection h with h2; subst h2; simp))
  all_goals (injection h)

theorem dealWithCall_len (env : Env) (ext : ExtModel) (s : State) (fOffset : Nat)
    (l : List State)
    (hext : ∀ lang f s2 l2, ext lang f s2 = .ok l2 → l2.length ≤ 2)
    (h : dealWithCall env ext s fOffset = .ok l) : l.length ≤ 2 := by
  simp only [dealWithCall] at h
  repeat' split at h
  all_goals (try (exact hext _ _ _ _ h))
  all_goals (try (injection h with h2; subst h2; simp))
  all_goals (injection h)

theorem brTableStep_len (op : SymVal) (s : State) (acc : List State) (t : Nat)
    (idxs : List Nat) : (brTableStep op s acc t idxs).length ≤ acc.length + 1 := by
  simp only [brTableStep]
  repeat' split
  all_goals simp

theorem brTableFold_len (op : SymVal) (s : State) :
    ∀ (groups : List (Nat × List Nat)) (acc : List State),
      ((groups.foldl (fun acc g => brTableStep op s acc g.1 g.2) acc).length)
        ≤ acc.length + groups.length := by
  intro groups
  induction groups with
  | nil => intro acc; simp
  | cons g gs ih =>
    intro acc
    have h1 := brTableStep_len op s acc g.1 g.2
    have h2 := ih (brTableStep op s acc g.1 g.2)
    simp only [List.foldl_cons]
    calc ((gs.foldl (fun acc g => brTableStep op s acc g.1 g.2)
            (brTableStep op s acc g.1 g.2)).length)
        ≤ (brTableStep op s acc g.1 g.2).length + gs.length := h2
      _ ≤ acc.length + 1 + gs.length := by omega
      _ = acc.length + (g :: gs).length := by simp; omega

theorem brTableCore_len (operandBytes : List Nat) (s : State) (l : List State)
    (h : brTableCore operandBytes s = .ok l) :
    l.length ≤ numDistinctTargets operandBytes + 1 := by
  obtain ⟨stk, lv, gl, sv, cs, fn, bb, ed, cic⟩ := s
  cases stk with
  | nil => exact Except.noConfusion h
  | cons op rest =>
    cases operandBytes with
    | nil => exact Except.noConfusion h
    | cons nBr tail =>
      by_cases hbv : isBVSym op = true
      · simp only [brTableCore, hbv, if_true] at h
        have hbase := brTableFold_len op
          ⟨rest, lv, gl, sv, cs, fn, bb, ed, cic⟩
          ((dedupFO tail.dropLast).map (fun t => (t, idxIndicesOf tail.dropLast t))) []
        simp only [List.length_map, List.length_nil, Nat.zero_add] at hbase
        simp only [numDistinctTargets]
        repeat' split at h
        all_goals (try (exact Except.noConfusion h))
        all_goals (injection h with h2; subst h2)
        all_goals (try omega)
        all_goals (rw [List.length_append]; simp only [List.length_cons, List.length_nil]; omega)
      · simp only [brTableCore, hbv, if_false] at h
        exact Except.noConfusion h

theorem controlEmulate_len (env : Env) (ext : ExtModel) (q : SolverQuery)
    (info : InstrInfo) (s : State) (l : List State)
    (hext : ∀ lang f s2 l2, ext lang f s2 = .ok l2 → l2.length ≤ 2)
    (hbt : strEq info.name "br_table" = false)
    (h : controlEmulate env ext q info s = .ok l) : l.length ≤ 2 := by
  unfold controlEmulate at h
  repeat' split at h
  all_goals (try (injection h with h2; subst h2; simp))
  all_goals (try (injection h))
  all_goals (try (exact brIfCore_len q s l h))
  all_goals (try (exact dealWithCall_len _ _ _ _ _ hext h))
  all_goals simp_all

/-- C3 amended: every `emulate` returns at most two successor states —
except `br_table`, which returns up to one deep-copied state per distinct
branch target plus possibly the default (and so can exceed two), and except
calls dispatched to external library models, whose state count is the
model's (assumed here to be at most two); `select`'s both-unsatisfiable
case returns no state list at all rather than a sequence. -/
theorem c3_amended :
    (∀ (q : SolverQuery) (name : String) (s : State) (r : Option (List State)),
      parametricEmulate q name s = .ok r → ∀ l, r = some l → l.length ≤ 2)
    ∧ (∀ (name : String) (s : State) (l : List State),
      arithmeticEmulate name s = .ok l → l.length ≤ 2)
    ∧ (∀ (name : String) (s : State) (l : List State),
      bitwiseEmulate name s = .ok l → l.length ≤ 2)
    ∧ (∀ (instrStr : String) (s : State) (l : List State),
      constantEmulate instrStr s = .ok l → l.length ≤ 2)
    ∧ (∀ (name : String) (s : State) (l : List State),
      conversionEmulate name s = .ok l → l.length ≤ 2)
    ∧ (∀ (name : String) (operandBytes : List Nat) (s : State) (l : List State),
      variableEmulate name operandBytes s = .ok l → l.length ≤ 2)
    ∧ (∀ (env : Env) (ext : ExtModel) (q : SolverQuery) (info : InstrInfo)
        (s : State) (l : List State),
      (∀ lang f s2 l2, ext lang f s2 = .ok l2 → l2.length ≤ 2) →
      strEq info.name "br_table" = false →
      controlEmulate env ext q info s = .ok l → l.length ≤ 2)
    ∧ (∀ (env : Env) (ext : ExtModel) (q : SolverQuery) (info : InstrInfo)
        (s : State) (l : List State),
      strEq info.name "br_table" = true →
      controlEmulate env ext q info s = .ok l →
      l.length ≤ numDistinctTargets info.operandBytes + 1) := by
  refine ⟨parametricEmulate_len, arithmeticEmulate_len, bitwiseEmulate_len,
    constantEmulate_len, conversionEmulate_len, variableEmulate_len,
    ?_, ?_⟩
  · intro env ext q info s l hext hbt h
    exact controlEmulate_len env ext q info s l hext hbt h
  · intro env ext q info s l hbt h
    obtain ⟨n, ob, istr, xr⟩ := info
    simp only at hbt
    have hn := strEq_eq n "br_table" hbt
    subst hn
    have hroute : controlEmulate env ext q ⟨"br_table", ob, istr, xr⟩ s
        = brTableCore ob s := rfl
    rw [hroute] at h
    exact brTableCore_len ob s l h

/-- C3 amended witness: an `i32.add` returns one state (at most two). -/
theorem c3_amended_witness :
    ([{ stEmpty with symbolicStack := [SymVal.bv 32 3] }] : List State).length ≤ 2 :=
  c3_amended.2.1 "i32.add" stAdd
    [{ stEmpty with symbolicStack := [SymVal.bv 32 3] }] rfl
